import Mathlib

set_option linter.unusedVariables false

/-!
Verification development for the PostgreSQL GUC composite-type engine
(`guc_composite.c`).  The C code is embedded shallowly: the mutable char
buffer of the recursive-descent parser becomes `List Char` with explicit
positions; the opaque byte buffers holding composite values become the
inductive `CVal` (tagged by shape, with allocation identifiers on the two
kinds of owned heap resources: strings and variable-array buffers); the
global type hashtable becomes an association list of `type_definition`s;
recursion over the type graph is bounded by an explicit fuel parameter
(the C recursion is bounded by the type DAG depth; exhausted fuel is
reported through the dedicated error kind `noFuel`, a path the C code
never takes).
-/

namespace GucComposite

/-- Character constants written via code points so that quote and brace
characters never appear as literals. -/
def squote : Char := Char.ofNat 39

def nullc : Char := Char.ofNat 0

def lbrace : Char := Char.ofNat 123

def rbrace : Char := Char.ofNat 125

def lbrack : Char := Char.ofNat 91

def rbrack : Char := Char.ofNat 93

/-- Abbreviation turning a string literal into the `List Char` the
embedded scanner works on. -/
def cs (s : String) : List Char := s.toList

/-- C `isspace` (the locale-independent set used by the parser). -/
def isspaceC (c : Char) : Bool :=
  c = ' ' || c = Char.ofNat 9 || c = Char.ofNat 10 || c = Char.ofNat 11 ||
  c = Char.ofNat 12 || c = Char.ofNat 13

/-- C `isdigit`. -/
def isdigitC (c : Char) : Bool :=
  48 ≤ c.toNat && c.toNat ≤ 57

/-- Numeric value of a digit list (the all-digit case of `strtol`).
`strtol` overflow clamping is not modelled; indices stay mathematical. -/
def digitsToNat (l : List Char) : Nat :=
  l.foldl (fun a c => a * 10 + (c.toNat - 48)) 0

/-- C `atoi`: skip `isspace`, optional sign, leading digits, 0 if none. -/
def atoiL (s : List Char) : Int :=
  let t := s.dropWhile isspaceC
  match t with
  | c :: rest =>
      if c = '-' then - (digitsToNat (rest.takeWhile isdigitC) : Int)
      else if c = '+' then (digitsToNat (rest.takeWhile isdigitC) : Int)
      else (digitsToNat (t.takeWhile isdigitC) : Int)
  | [] => 0

/-- The `parser_status` enum of guc_composite.h. -/
inductive parser_status where
  | parserOk
  | parserFail
  | parserErr
  | parserNotFound
deriving DecidableEq, Repr

/-- Error classification.  The C code reports errors through `ereport`
sites; each embedded error carries the kind of the site that produced it
(`indexOutOfBounds` for the "index out of bounds in array" messages,
`invalidName` for the `ERRCODE_INVALID_NAME` sites, `invalidDefinition`
for the `ERRCODE_INVALID_OBJECT_DEFINITION` sites, `atomicFailure` for
atomic-parser rejections).  `oobAccess` marks places where the C code
would read or write raw memory outside any allocation (undefined
behaviour that a structural embedding cannot perform); `noFuel` marks
exhaustion of the recursion bound. -/
inductive err_kind where
  | noErr
  | invalidDefinition
  | invalidName
  | indexOutOfBounds
  | atomicFailure
  | oobAccess
  | noFuel
deriving DecidableEq, Repr

/-- The `parser_res` struct.  Pointer results (`res_str` used as a
position, `parse_end`) become indices into the scanned list; `res_str`
used as an owned name string keeps its list-of-char form. -/
structure parser_res where
  status : parser_status := .parserFail
  res_int : Int := 0
  res_str : List Char := []
  res_pos : Nat := 0
  parse_end : Nat := 0
  err : err_kind := .noErr
deriving DecidableEq, Repr

/-- One step of `find_same_level_symbol`: the C for-loop over the scratch
buffer with two nesting counters and the single-quoted-string state
(including the doubled-quote look-ahead `*(c+1)`). -/
def find_same_level_loop (symbol : Char) :
    List Char → Int → Int → Bool → Int → Nat → parser_status × Nat
  | [], _, _, _, _, pos => (.parserNotFound, pos)
  | ch :: rest, braces, brackets, in_str, quote_cntr, pos =>
    if ch = symbol ∧ ¬ in_str ∧ braces = 0 ∧ brackets = 0 then
      (.parserOk, pos)
    else
      let st :=
        if ch = lbrace ∧ ¬ in_str then (braces + 1, brackets, in_str, quote_cntr)
        else if ch = rbrace ∧ ¬ in_str then (braces - 1, brackets, in_str, quote_cntr)
        else if ch = lbrack ∧ ¬ in_str then (braces, brackets + 1, in_str, quote_cntr)
        else if ch = rbrack ∧ ¬ in_str then (braces, brackets - 1, in_str, quote_cntr)
        else if ch = squote then
          let q := 1 - quote_cntr
          if in_str ∧ q ≠ 0 ∧ rest.headD nullc ≠ squote then
            (braces, brackets, false, 0)
          else if ¬ in_str then (braces, brackets, true, 0)
          else (braces, brackets, in_str, q)
        else (braces, brackets, in_str, quote_cntr)
      if st.1 < 0 ∨ st.2.1 < 0 then
        (if ch = symbol then .parserOk else .parserNotFound, pos)
      else find_same_level_loop symbol rest st.1 st.2.1 st.2.2.1 st.2.2.2 (pos + 1)

/-- `find_same_level_symbol`: position of the first occurrence of
`symbol` at nesting depth zero outside strings, or the stop position
(end of input, or a closing bracket that went negative) with status
`PARSER_NOT_FOUND`. -/
def find_same_level_symbol (s : List Char) (symbol : Char) : parser_status × Nat :=
  find_same_level_loop symbol s 0 0 false 0 0

/-- `get_index`: extract the optional `index:` prefix of an array
element.  Mirrors the C control flow: locate the next `,`/`]` delimiter,
then the colon, then validate the digit run between start and colon. -/
def get_index (s : List Char) : parser_res :=
  let scomma := find_same_level_symbol s ','
  let ndel0 : Option Nat :=
    if scomma.1 = .parserOk then some scomma.2 else none
  let sbrack := find_same_level_symbol s rbrack
  if sbrack.1 = .parserNotFound then
    { status := .parserErr, err := .invalidDefinition }
  else
    let ndel1 : Option Nat :=
      if sbrack.1 = .parserOk ∧ (ndel0 = none ∨ ndel0.any (fun p => sbrack.2 < p)) then
        some sbrack.2
      else ndel0
    match ndel1 with
    | none => { status := .parserErr, err := .invalidDefinition }
    | some nd =>
      let scolon := find_same_level_symbol s ':'
      if scolon.1 = .parserNotFound then
        { status := .parserNotFound, parse_end := nd }
      else if nd < scolon.2 then
        { status := .parserNotFound, parse_end := nd }
      else
        let pre := s.take scolon.2
        let core := ((pre.dropWhile isspaceC).reverse.dropWhile isspaceC).reverse
        if core = [] then
          { status := .parserErr, err := .invalidDefinition, parse_end := nd }
        else if core.all isdigitC then
          { status := .parserOk, res_int := (digitsToNat core : Int), parse_end := nd }
        else
          { status := .parserErr, err := .invalidDefinition, parse_end := nd }

/-- `get_name`: extract the `name:` prefix of a record field.  The name
is the colon-delimited text with surrounding spaces stripped; any
characters are accepted. -/
def get_name (s : List Char) : parser_res :=
  let scomma := find_same_level_symbol s ','
  let ndel0 : Option Nat :=
    if scomma.1 = .parserOk then some scomma.2 else none
  let sbrace := find_same_level_symbol s rbrace
  if sbrace.1 = .parserNotFound then
    { status := .parserErr, err := .invalidDefinition }
  else
    let ndel1 : Option Nat :=
      if sbrace.1 = .parserOk ∧ (ndel0 = none ∨ ndel0.any (fun p => sbrace.2 < p)) then
        some sbrace.2
      else ndel0
    match ndel1 with
    | none => { status := .parserErr, err := .invalidDefinition }
    | some nd =>
      let scolon := find_same_level_symbol s ':'
      if scolon.1 = .parserNotFound then
        { status := .parserErr, err := .invalidName, parse_end := nd }
      else
        let pre := s.take scolon.2
        let core := ((pre.dropWhile isspaceC).reverse.dropWhile isspaceC).reverse
        if core = [] then
          { status := .parserErr, err := .invalidName, parse_end := nd }
        else
          { status := .parserOk, res_str := core, parse_end := nd }

/-- Loop of `get_max_index`: walk the remaining elements, keeping the
all-or-none index discipline (`state` is 1 for indexed, -1 for
positional) and the running maximum.  The loop cursor strictly advances;
the fuel bound is passed by the wrapper. -/
def get_max_index_loop (s : List Char) :
    Nat → Int → Int → Nat → parser_res
  | 0, _, _, _ => { status := .parserErr, err := .noFuel }
  | fuel + 1, state, index, next_del =>
    if s.getD next_del nullc = rbrack then
      { status := .parserOk, res_int := index }
    else
      let nd := next_del + 1
      let st := get_index (s.drop nd)
      match st.status with
      | .parserOk =>
          if state = -1 then
            { status := .parserErr, err := .invalidDefinition }
          else
            get_max_index_loop s fuel state
              (if st.res_int > index then st.res_int else index) (nd + st.parse_end)
      | .parserNotFound =>
          if state = 1 then
            { status := .parserErr, err := .invalidDefinition }
          else
            get_max_index_loop s fuel state (index + 1) (nd + st.parse_end)
      | _ => { status := .parserErr, err := st.err }

/-- `get_max_index`: maximum effective element index of an array body
(`s` starts just after the opening bracket). -/
def get_max_index (s : List Char) : parser_res :=
  let ist := get_index s
  match ist.status with
  | .parserOk => get_max_index_loop s (s.length + 2) 1 ist.res_int ist.parse_end
  | .parserNotFound => get_max_index_loop s (s.length + 2) (-1) 0 ist.parse_end
  | _ => { status := .parserErr, err := ist.err }

/-- `is_empty_array`: only whitespace between the position after `start`
and `endPos`. -/
def is_empty_array (s : List Char) (endPos : Nat) : Bool :=
  1 + ((s.drop 1).takeWhile isspaceC).length = endPos

/-- `check_braces`: demand the opening delimiter at position 0 and
return the position of the matching closer (or `none`). -/
def check_braces (s : List Char) (openc closec : Char) : Option Nat :=
  if s.getD 0 nullc ≠ openc then none
  else
    let r := find_same_level_symbol (s.drop 1) closec
    if r.1 = .parserOk then some (1 + r.2) else none

/-- `check_array_syntax` (renamed: `check_array_shape`): brackets
balanced, and `res_int` = maximum effective index (0 for an empty
array, as the zero-initialised C result). -/
def check_array_shape (s : List Char) : parser_res :=
  match check_braces s lbrack rbrack with
  | none => { status := .parserErr, err := .invalidDefinition }
  | some pe =>
    if is_empty_array s pe then
      { status := .parserOk, parse_end := pe }
    else
      let m := get_max_index (s.drop 1)
      match m.status with
      | .parserOk => { status := .parserOk, res_int := m.res_int, parse_end := pe }
      | _ => { status := .parserErr, err := m.err, parse_end := pe }

/-- Loop of `find_field`: scan `name:` prefixes of the structure text,
stopping at the field called `name`.  `st` is the position of the
delimiter before the current field (`res_pos` of the result is `st + 1`,
the field start, as the C `res_str`). -/
def find_field_loop (s : List Char) (name : List Char) :
    Nat → Nat → parser_res
  | 0, _ => { status := .parserErr, err := .noFuel }
  | fuel + 1, st =>
    if s.getD st nullc = rbrace then { status := .parserNotFound }
    else
      let ns := get_name (s.drop (st + 1))
      match ns.status with
      | .parserOk =>
          if ns.res_str = name then { status := .parserOk, res_pos := st + 1 }
          else find_field_loop s name fuel (st + 1 + ns.parse_end)
      | _ => { status := .parserErr, err := ns.err }

/-- `find_field`: position (after the preceding delimiter) of the field
called `name` inside a braced structure literal. -/
def find_field (s : List Char) (name : List Char) : parser_res :=
  find_field_loop s name (s.length + 2) 0

/-! ## Type registry and layout calculator -/

/-- `struct_field` of guc_tables.h: a field's name and type name. -/
structure struct_field where
  name : List Char
  type : List Char
deriving DecidableEq, Repr

/-- `type_definition`: a registered record.  `offset` is the C field
name for the alignment.  `cnt_fields` is stored separately from the
parsed `fields` list because `init_type_definition` counts delimiters
rather than parsed tokens (the two agree for well-formed signatures). -/
structure type_definition where
  type : List Char
  signature : List Char
  cnt_fields : Int
  fields : List struct_field
  type_size : Int
  offset : Int
deriving DecidableEq, Repr

/-- The `guc_types_hashtab` hash table, as an association list keyed by
type name. -/
abbrev Registry := List type_definition

/-- `get_type_definition`. -/
def get_type_definition (reg : Registry) (type_name : List Char) :
    Option type_definition :=
  reg.find? (fun d => d.type = type_name)

/-- The fields the C loops `for (i = 0; i < cnt_fields; i++)` actually
visit.  When `cnt_fields` exceeds the parsed list the C reads
uninitialised `struct_field` slots; the embedding stops at the list. -/
def def_fields (d : type_definition) : List struct_field :=
  d.fields.take d.cnt_fields.toNat

/-- `is_atomic_type`. -/
def is_atomic_type (type : List Char) : Bool :=
  type = cs "bool" || type = cs "int" || type = cs "real" || type = cs "string"

/-- Position of the first occurrence of `c` (C `strchr`). -/
def strchrPos (s : List Char) (c : Char) : Option Nat :=
  s.findIdx? (· = c)

/-- `is_static_array_type`: has `[`, has `]`, and the digits after `[`
read as a positive integer. -/
def is_static_array_type (type_name : List Char) : Bool :=
  match strchrPos type_name lbrack with
  | none => false
  | some i =>
    if (strchrPos type_name rbrack).isNone then false
    else atoiL (type_name.drop (i + 1)) > 0

/-- `is_dynamic_array_type`: has `[`, has `]`, and the digits after `[`
read as zero or negative (covers `T[]` and `T[0]`). -/
def is_dynamic_array_type (type_name : List Char) : Bool :=
  match strchrPos type_name lbrack with
  | none => false
  | some i =>
    if (strchrPos type_name rbrack).isNone then false
    else atoiL (type_name.drop (i + 1)) ≤ 0

/-- `get_static_array_size`: the declared element count (-1 with no
bracket). -/
def get_static_array_size (type_name : List Char) : Int :=
  match strchrPos type_name lbrack with
  | none => -1
  | some i => atoiL (type_name.drop (i + 1))

/-- `get_array_basic_type`: drop the first `[...]` group, keeping the
prefix and whatever follows the matching `]`. -/
def get_array_basic_type (array_type : List Char) : Option (List Char) :=
  match strchrPos array_type lbrack with
  | none => none
  | some bo =>
    match strchrPos (array_type.drop bo) rbrack with
    | none => none
    | some rel =>
      some (array_type.take bo ++ array_type.drop (bo + rel + 1))

/-- `canonize_idx`: -1 unless the first non-space (space, tab, vertical
tab, newline — the custom set of the C loop) character is a digit, else
`atoi`. -/
def canonize_idx (field : List Char) : Int :=
  let isCanonSpace : Char → Bool := fun c =>
    c = ' ' || c = Char.ofNat 9 || c = Char.ofNat 11 || c = Char.ofNat 10
  let t := field.dropWhile isCanonSpace
  match t with
  | [] => -1
  | c :: _ => if isdigitC c then atoiL field else -1

/-- Host ABI word size for pointers (the spec's 64-bit host: variable
arrays occupy a pointer plus an integer, two 8-byte words). -/
def ptrSize : Int := 8

/-- `get_type_size` / `get_type_offset` and the array helpers they call,
bounded by fuel (each recursion step strips one `[N]` group from the
type name, so `length + 1` fuel always suffices).  A result `< 0` is the
C error convention. -/
def get_type_offsetF : Nat → Registry → Option (List Char) → Int
  | 0, _, _ => -1
  | _ + 1, _, none => -1
  | fuel + 1, reg, some t =>
    if is_dynamic_array_type t then ptrSize
    else if is_static_array_type t then
      match get_array_basic_type t with
      | none => -1
      | some b =>
        let e := get_type_offsetF fuel reg (some b)
        if e < 0 then -1 else e
    else
      match get_type_definition reg t with
      | none => -1
      | some d => d.offset

def get_type_sizeF : Nat → Registry → Option (List Char) → Int
  | 0, _, _ => -1
  | _ + 1, _, none => -1
  | fuel + 1, reg, some t =>
    if is_dynamic_array_type t then ptrSize * 2
    else if is_static_array_type t then
      match get_array_basic_type t with
      | none => -1
      | some b =>
        let element_offset := get_type_offsetF fuel reg (some b)
        let element_size := get_type_sizeF fuel reg (some b)
        if element_offset < 0 ∨ element_size < 0 then -1
        else get_static_array_size t * (element_size + element_size % element_offset)
    else
      match get_type_definition reg t with
      | none => -1
      | some d => d.type_size

/-- `get_type_offset` with the always-sufficient fuel. -/
def get_type_offset (reg : Registry) (t : List Char) : Int :=
  get_type_offsetF (t.length + 1) reg (some t)

/-- `get_type_size` with the always-sufficient fuel. -/
def get_type_size (reg : Registry) (t : List Char) : Int :=
  get_type_sizeF (t.length + 1) reg (some t)

/-- `get_dynamic_array_mem_size_with_length`: buffer byte size for a
variable array of the given length (`length × stride`, where the stride
is `size + size % alignment` — design note DN-1). -/
def get_dynamic_array_mem_size_with_length (reg : Registry)
    (type_name : List Char) (length : Int) : Int :=
  match get_array_basic_type type_name with
  | none => -1
  | some b =>
    let element_offset := get_type_offset reg b
    let element_size := get_type_size reg b
    if element_offset < 0 ∨ element_size < 0 then -1
    else length * (element_size + element_size % element_offset)

/-- `get_element_offset_with_index`: byte offset of element `index`
(stride per DN-1). -/
def get_element_offset_with_index (reg : Registry) (type_name : List Char)
    (index : Int) : Int :=
  match get_array_basic_type type_name with
  | none => -1
  | some b =>
    let element_offset := get_type_offset reg b
    let element_size := get_type_size reg b
    if element_offset < 0 ∨ element_size < 0 then -1
    else (element_size + element_size % element_offset) * index

/-- `get_struct_field_type`: type of a record field, by name, over the
fields the C loop visits. -/
def get_struct_field_type (reg : Registry) (type_name field : List Char) :
    Option (List Char) :=
  match get_type_definition reg type_name with
  | none => none
  | some d => (def_fields d).find? (fun f => f.name = field) |>.map (·.type)

/-- `get_field_type_name`: field type of any composite (the hidden
`data`/`size` fields of variable arrays, array element types without an
index check, record fields by name). -/
def get_field_type_name (reg : Registry) (type_name field : List Char) :
    Option (List Char) :=
  if is_dynamic_array_type type_name ∧ field = cs "size" then some (cs "int")
  else if is_dynamic_array_type type_name ∧ field = cs "data" then some type_name
  else if is_static_array_type type_name ∨ is_dynamic_array_type type_name then
    get_array_basic_type type_name
  else get_struct_field_type reg type_name field

/-- Walk of `get_struct_field_offset`: round the running offset up to
each field's alignment, return it at the matching name, else advance by
the field's size. -/
def get_struct_field_offset_loop (reg : Registry) (field : List Char) :
    List struct_field → Int → Int
  | [], _ => -1
  | f :: fs, total_offset =>
    let local_off := get_type_offset reg f.type
    if local_off < 0 then -1
    else
      let total_offset :=
        if total_offset % local_off ≠ 0 then
          total_offset + (local_off - total_offset % local_off)
        else total_offset
      if f.name = field then total_offset
      else get_struct_field_offset_loop reg field fs
        (total_offset + get_type_size reg f.type)

/-- `get_struct_field_offset`. -/
def get_struct_field_offset (reg : Registry) (type_name field : List Char) : Int :=
  match get_type_definition reg type_name with
  | none => -1
  | some d => get_struct_field_offset_loop reg field (def_fields d) 0

/-- A structural stand-in for the byte offsets `get_field_offset`
returns: the parser writes through `base + offset`, which in the
structural value is one of these four targets. -/
inductive field_sel where
  | dynData
  | dynSize
  | arrElem (i : Int)
  | recField (i : Nat)
deriving DecidableEq, Repr

/-- `get_field_offset`, with byte offsets replaced by structural
selectors: offset 0 of a dynamic array is the `data` word, offset
`sizeof(void *)` the `size` word, an array element offset is the element
index, and a record field offset is the field position that
`get_struct_field_offset` computes for the (first) field of that name.
The walk of `get_struct_field_offset` is replayed to preserve its error
cases. -/
def get_field_offset_sel (reg : Registry) (type_name field : List Char) :
    Option field_sel :=
  if is_dynamic_array_type type_name ∧ field = cs "data" then some .dynData
  else if is_dynamic_array_type type_name ∧ field = cs "size" then some .dynSize
  else if is_static_array_type type_name ∨ is_dynamic_array_type type_name then
    let idx := canonize_idx field
    if idx < 0 then none
    else if get_element_offset_with_index reg type_name idx < 0 then none
    else some (.arrElem idx)
  else
    match get_type_definition reg type_name with
    | none => none
    | some d =>
      if get_struct_field_offset reg type_name field < 0 then none
      else
        match (def_fields d).findIdx? (fun f => f.name = field) with
        | none => none
        | some i => some (.recField i)

/-! ## Values

A composite value is an opaque byte buffer in C; structurally it is a
tree tagged by shape.  The two owned heap resources — string text and
variable-array data buffers — carry an allocation identifier `Nat`, so
that duplication freshness and release can be stated.  `real` values are
modelled as rationals (the claims under proof never depend on binary
floating-point rounding). -/

inductive CVal where
  | vBool (b : Bool)
  | vInt (i : Int)
  | vReal (r : Rat)
  | vString (p : Option (Nat × List Char))
  | vArr (elems : List CVal)
  | vDynArr (data : Option (Nat × List CVal)) (size : Int)
  | vStruct (fields : List CVal)

/-- The content of memory `guc_malloc` returns before anything is
written to it (uninitialised; any theorem touching it carries an
explicit junk oracle instead). -/
def uninit : CVal := .vStruct []

mutual

/-- Allocation identifiers of the owned resources reachable from a
value. -/
def idsOf : CVal → List Nat
  | .vBool _ => []
  | .vInt _ => []
  | .vReal _ => []
  | .vString none => []
  | .vString (some (i, _)) => [i]
  | .vArr es => idsOfList es
  | .vDynArr none _ => []
  | .vDynArr (some (i, es)) _ => i :: idsOfList es
  | .vStruct fs => idsOfList fs
termination_by structural v => v

def idsOfList : List CVal → List Nat
  | [] => []
  | v :: vs => idsOf v ++ idsOfList vs
termination_by structural l => l

end

/-- The junk oracle: contents of a fresh `guc_malloc` buffer, indexed by
the allocation counter at the malloc and the element position.  The C
contents are unspecified; theorems either show the junk never surfaces
or exhibit that it does. -/
abbrev Junk := Nat → Nat → CVal

/-- The elements of a freshly malloc'd (uninitialised) variable-array
buffer. -/
def junkBlock (junk : Junk) (id : Nat) (n : Nat) : List CVal :=
  (List.range n).map (junk id)

/-- The value `memset(p, 0, size)` leaves behind, read back through the
type: zero scalars, null string pointers, null/empty variable arrays,
all-zero aggregates. -/
def zeroValueF : Nat → Registry → List Char → CVal
  | 0, _, _ => uninit
  | fuel + 1, reg, t =>
    if is_static_array_type t then
      match get_array_basic_type t with
      | some b =>
          .vArr (List.replicate (get_static_array_size t).toNat (zeroValueF fuel reg b))
      | none => uninit
    else if is_dynamic_array_type t then .vDynArr none 0
    else if t = cs "bool" then .vBool false
    else if t = cs "int" then .vInt 0
    else if t = cs "real" then .vReal 0
    else if t = cs "string" then .vString none
    else
      match get_type_definition reg t with
      | some d => .vStruct ((def_fields d).map (fun f => zeroValueF fuel reg f.type))
      | none => uninit

/-- Read through a `get_field_offset` target (`sel_read v sel` is the
memory the parser is pointed at).  `arrElem` through this path would
address the two header words of a variable array as element storage —
out of the model, like the raw C access. -/
def sel_read (v : CVal) : field_sel → Option CVal
  | .dynData => some v
  | .dynSize =>
    match v with
    | .vDynArr _ sz => some (.vInt sz)
    | _ => none
  | .arrElem _ => none
  | .recField i =>
    match v with
    | .vStruct fs => fs.get? i
    | _ => none

/-- Write through a `get_field_offset` target. -/
def sel_write (v : CVal) (nv : CVal) : field_sel → Option CVal
  | .dynData => some nv
  | .dynSize =>
    match v, nv with
    | .vDynArr d _, .vInt n => some (.vDynArr d n)
    | _, _ => none
  | .arrElem _ => none
  | .recField i =>
    match v with
    | .vStruct fs => if i < fs.length then some (.vStruct (fs.set i nv)) else none
    | _ => none

/-! ## Duplication (`struct_dup_impl` and helpers)

Functional rendering of the in-place copy: each function takes the
destination memory (`dest`), the source, and the allocation counter, and
returns the overwritten destination plus the advanced counter.  Fresh
allocations (`guc_strdup`, the dynamic-array `guc_malloc`) take the
current counter as identifier. -/

mutual

def struct_dup_impl : Nat → Registry → CVal → CVal → List Char → Nat → CVal × Nat
  | 0, _, dest, _, _, ctr => (dest, ctr)
  | fuel + 1, reg, dest, src, type, ctr =>
    if is_static_array_type type then
      static_array_duplicate fuel reg dest src type ctr
    else if is_dynamic_array_type type then
      dynamic_array_duplicate fuel reg dest src type ctr
    else struct_duplicate fuel reg dest src type ctr
termination_by structural f a b c d e => f

def static_array_duplicate : Nat → Registry → CVal → CVal → List Char → Nat → CVal × Nat
  | 0, _, dest, _, _, ctr => (dest, ctr)
  | fuel + 1, reg, dest, src, type, ctr =>
    match get_array_basic_type type, dest, src with
    | some basic, .vArr ds, .vArr ss =>
      let n := (get_static_array_size type).toNat
      let r := dup_list fuel reg basic (ds.take n) (ss.take n) ctr
      (.vArr (r.1 ++ ds.drop n), r.2)
    | _, _, _ => (dest, ctr)
termination_by structural f a b c d e => f

/-- The per-element loop shared by the two array duplicators: overwrite
each destination element with the duplicate of the matching source
element. -/
def dup_list : Nat → Registry → List Char → List CVal → List CVal → Nat → List CVal × Nat
  | 0, _, _, ds, _, ctr => (ds, ctr)
  | fuel + 1, reg, basic, ds, ss, ctr =>
    match ds with
    | [] => ([], ctr)
    | d :: drest =>
      let r1 := struct_dup_impl fuel reg d (ss.headD uninit) basic ctr
      let r2 := dup_list fuel reg basic drest ss.tail r1.2
      (r1.1 :: r2.1, r2.2)
termination_by structural f a b c d e => f

def dynamic_array_duplicate : Nat → Registry → CVal → CVal → List Char → Nat → CVal × Nat
  | 0, _, dest, _, _, ctr => (dest, ctr)
  | fuel + 1, reg, dest, src, type, ctr =>
    match src with
    | .vDynArr d sz =>
      if sz = 0 then (.vDynArr none 0, ctr)
      else
        match get_array_basic_type type with
        | none => (dest, ctr)
        | some basic =>
          let n := sz.toNat
          let srcElems0 := (d.map Prod.snd).getD []
          let srcElems := srcElems0.take n ++ List.replicate (n - srcElems0.length) uninit
          let r := dup_list fuel reg basic (List.replicate n uninit) srcElems (ctr + 1)
          (.vDynArr (some (ctr, r.1)) sz, r.2)
    | _ => (dest, ctr)
termination_by structural f a b c d e => f

/-- The per-field loop of `struct_duplicate`. -/
def dup_fields : Nat → Registry → List struct_field → List CVal → List CVal → Nat → List CVal × Nat
  | 0, _, _, ds, _, ctr => (ds, ctr)
  | fuel + 1, reg, fs, ds, ss, ctr =>
    match fs with
    | [] => (ds, ctr)
    | f :: fsrest =>
      let r1 := struct_dup_impl fuel reg (ds.headD uninit) (ss.headD uninit) f.type ctr
      let r2 := dup_fields fuel reg fsrest ds.tail ss.tail r1.2
      (r1.1 :: r2.1, r2.2)
termination_by structural f a b c d e => f

def struct_duplicate : Nat → Registry → CVal → CVal → List Char → Nat → CVal × Nat
  | 0, _, dest, _, _, ctr => (dest, ctr)
  | fuel + 1, reg, dest, src, type, ctr =>
    match get_type_definition reg type with
    | none => (dest, ctr)
    | some d =>
      if d.cnt_fields = 0 then
        if type = cs "string" then
          match src with
          | .vString (some (_, content)) => (.vString (some (ctr, content)), ctr + 1)
          | .vString none => (.vString none, ctr)
          | _ => (dest, ctr)
        else
          /- `memcpy(dest, src, type_size)`: a faithful structural copy
             for the scalar layouts this branch serves (`bool`, `int`,
             `real`); a byte copy of a pointer-bearing layout would
             alias and is out of the model. -/
          match src with
          | .vBool b2 => (.vBool b2, ctr)
          | .vInt i2 => (.vInt i2, ctr)
          | .vReal q2 => (.vReal q2, ctr)
          | _ => (dest, ctr)
      else
        match dest, src with
        | .vStruct dfs, .vStruct sfs =>
          let r := dup_fields fuel reg (def_fields d) dfs sfs ctr
          (.vStruct r.1, r.2)
        | _, _ => (dest, ctr)
termination_by structural f a b c d e => f

end

/-- `struct_dup`: allocate a root (its uninitialised content is the
`mallocv` argument) and deep-copy; NULL duplicates to NULL. -/
def struct_dup (fuel : Nat) (reg : Registry) (mallocv : CVal)
    (src : Option CVal) (type : List Char) (ctr : Nat) : Option CVal × Nat :=
  match src with
  | none => (none, ctr)
  | some p =>
    let r := struct_dup_impl fuel reg mallocv p type ctr
    (some r.1, r.2)

/-! ## Comparison (`struct_cmp` and helpers)

`struct_cmp` consumes one unit of fuel per descent; the helpers receive
the decremented fuel for their element calls.  The value 2 is the C
error code for an unknown type; it also stands for comparisons the C
code would perform on memory outside the value (and for exhausted
fuel). -/

/-- C `strcmp` (sign information only matters to the caller, which
normalises it). -/
def strcmpL : List Char → List Char → Int
  | [], [] => 0
  | [], _ :: _ => -1
  | _ :: _, [] => 1
  | a :: as1, b :: bs1 =>
    if a = b then strcmpL as1 bs1 else (a.toNat : Int) - (b.toNat : Int)

mutual

def struct_cmp : Nat → Registry → List Char → CVal → CVal → Int
  | 0, _, _, _, _ => 2
  | fuel + 1, reg, type, a, b =>
    if is_static_array_type type then
      array_data_cmp fuel reg type a b (get_static_array_size type)
    else if is_dynamic_array_type type then
      dynamic_array_cmp fuel reg type a b
    else structure_cmp fuel reg type a b
termination_by structural f a b c d => f

/-- `array_data_cmp`: elementwise comparison of `size` elements. -/
def array_data_cmp : Nat → Registry → List Char → CVal → CVal → Int → Int
  | 0, _, _, _, _, _ => 2
  | fuel + 1, reg, type, a, b, size =>
    match get_array_basic_type type, a, b with
    | some basic, .vArr as1, .vArr bs1 => elems_cmp fuel reg basic size.toNat as1 bs1
    | _, _, _ => 2
termination_by structural f a b c d e => f

def elems_cmp : Nat → Registry → List Char → Nat → List CVal → List CVal → Int
  | _, _, _, 0, _, _ => 0
  | 0, _, _, _ + 1, _, _ => 2
  | fuel + 1, reg, basic, k + 1, a :: as1, b :: bs1 =>
    let r := struct_cmp fuel reg basic a b
    if r = 0 then elems_cmp fuel reg basic k as1 bs1 else r
  | _ + 1, _, _, _ + 1, _, _ => 2
termination_by structural f a b c d e => f

def dynamic_array_cmp : Nat → Registry → List Char → CVal → CVal → Int
  | 0, _, _, _, _ => 2
  | fuel + 1, reg, type, a, b =>
    match a, b with
    | .vDynArr ad asz, .vDynArr bd bsz =>
      if asz - bsz ≠ 0 then asz - bsz
      else
        match get_array_basic_type type with
        | some basic =>
          elems_cmp fuel reg basic asz.toNat
            ((ad.map Prod.snd).getD []) ((bd.map Prod.snd).getD [])
        | none => 2
    | _, _ => 2
termination_by structural f a b c d => f

def fields_cmp : Nat → Registry → List struct_field → List CVal → List CVal → Int
  | _, _, [], _, _ => 0
  | 0, _, _ :: _, _, _ => 2
  | fuel + 1, reg, f :: fs, a :: as1, b :: bs1 =>
    let r := struct_cmp fuel reg f.type a b
    if r = 0 then fields_cmp fuel reg fs as1 bs1 else r
  | _ + 1, _, _ :: _, _, _ => 2
termination_by structural f a b c d => f

def structure_cmp : Nat → Registry → List Char → CVal → CVal → Int
  | 0, _, _, _, _ => 2
  | fuel + 1, reg, type, a, b =>
    match get_type_definition reg type with
    | none => 2
    | some d =>
      if d.cnt_fields = 0 then
        if type = cs "string" then
          match a, b with
          | .vString none, .vString none => 0
          | .vString none, .vString (some _) => -1
          | .vString (some _), .vString none => 1
          | .vString (some (_, x)), .vString (some (_, y)) =>
            let r := strcmpL x y
            if r = 0 then 0 else if r > 0 then 1 else -1
          | _, _ => 2
        else if type = cs "bool" then
          match a, b with
          | .vBool x, .vBool y =>
            let r := (if x then (1 : Int) else 0) - (if y then 1 else 0)
            if r = 0 then 0 else if r > 0 then 1 else -1
          | _, _ => 2
        else if type = cs "int" then
          match a, b with
          | .vInt x, .vInt y =>
            let r := x - y
            if r = 0 then 0 else if r > 0 then 1 else -1
          | _, _ => 2
        else if type = cs "real" then
          match a, b with
          | .vReal x, .vReal y =>
            let r := x - y
            if r = 0 then 0 else if r > 0 then 1 else -1
          | _, _ => 2
        else 2
      else
        match a, b with
        | .vStruct afs, .vStruct bfs => fields_cmp fuel reg (def_fields d) afs bfs
        | _, _ => 2
termination_by structural f a b c d => f

end

/-! ## Release (`free_aux_struct_mem`, `free_struct`)

Each function returns the identifiers it released, in release order,
together with the value after the C null-outs. -/

mutual

def free_aux_struct_mem : Nat → Registry → List Char → CVal → List Nat × CVal
  | 0, _, _, v => ([], v)
  | fuel + 1, reg, type, v =>
    let r1 :=
      if is_static_array_type type then free_aux_mem_stat_arr fuel reg type v
      else ([], v)
    let r2 :=
      if is_dynamic_array_type type then free_aux_mem_dyn_arr fuel reg type r1.2
      else ([], r1.2)
    let r3 := free_aux_structure_mem fuel reg type r2.2
    (r1.1 ++ r2.1 ++ r3.1, r3.2)
termination_by structural f a b c => f

def free_aux_mem_stat_arr : Nat → Registry → List Char → CVal → List Nat × CVal
  | 0, _, _, v => ([], v)
  | fuel + 1, reg, type, v =>
    match get_array_basic_type type, v with
    | some basic, .vArr es =>
      let n := (get_static_array_size type).toNat
      let r := free_elems_list fuel reg basic n es
      (r.1, .vArr r.2)
    | _, _ => ([], v)
termination_by structural f a b c => f

/-- Recursive release of the first `n` elements of an array buffer. -/
def free_elems_list : Nat → Registry → List Char → Nat → List CVal → List Nat × List CVal
  | _, _, _, 0, es => ([], es)
  | 0, _, _, _ + 1, es => ([], es)
  | fuel + 1, reg, basic, k + 1, es =>
    match es with
    | [] => ([], [])
    | e :: rest =>
      let r1 := free_aux_struct_mem fuel reg basic e
      let r2 := free_elems_list fuel reg basic k rest
      (r1.1 ++ r2.1, r1.2 :: r2.2)
termination_by structural f a b c d => f

def free_aux_mem_dyn_arr : Nat → Registry → List Char → CVal → List Nat × CVal
  | 0, _, _, v => ([], v)
  | fuel + 1, reg, type, v =>
    match get_array_basic_type type, v with
    | some basic, .vDynArr d sz =>
      /- The C loop bound is `get_static_array_size(type)`, which is ≤ 0
         for every dynamic array type, so the recursive per-element
         release never runs (were it positive, the C code would walk the
         two header words as element storage).  Then the data buffer is
         freed and the pointer nulled (the size word is left as is). -/
      let n := (get_static_array_size type).toNat
      let r := free_elems_list fuel reg basic n ((d.map Prod.snd).getD [])
      (r.1 ++ (d.map Prod.fst).toList, .vDynArr none sz)
    | _, _ => ([], v)
termination_by structural f a b c => f

def free_fields_list : Nat → Registry → List struct_field → List CVal → List Nat × List CVal
  | _, _, [], vs => ([], vs)
  | 0, _, _ :: _, vs => ([], vs)
  | fuel + 1, reg, f :: fs, vs =>
    match vs with
    | [] => ([], [])
    | v :: rest =>
      let r1 := free_aux_struct_mem fuel reg f.type v
      let r2 := free_fields_list fuel reg fs rest
      (r1.1 ++ r2.1, r1.2 :: r2.2)
termination_by structural f a b c => f

def free_aux_structure_mem : Nat → Registry → List Char → CVal → List Nat × CVal
  | 0, _, _, v => ([], v)
  | fuel + 1, reg, type, v =>
    match get_type_definition reg type with
    | none => ([], v)
    | some d =>
      if d.cnt_fields = 0 then
        if type = cs "string" then
          match v with
          | .vString (some (i, _)) => ([i], .vString none)
          | _ => ([], v)
        else ([], v)
      else
        match v with
        | .vStruct fs =>
          let r := free_fields_list fuel reg (def_fields d) fs
          (r.1, .vStruct r.2)
        | _ => ([], v)
termination_by structural f a b c => f

end

/-- `free_struct`: auxiliary memory first, then the root allocation
(identified by `rootId`). -/
def free_struct (fuel : Nat) (reg : Registry) (rootId : Nat)
    (type : List Char) (v : CVal) : List Nat × CVal :=
  let r := free_aux_struct_mem fuel reg type v
  (r.1 ++ [rootId], r.2)

/-! ## Modelled external collaborators

The atomic-value parsers and the quote escaping live outside this
repository (guc.c, builtins); the spec names them as provided
collaborators.  They are modelled from the spec here. -/

/-- Decimal digits of a natural number (structural stand-in for
`sprintf("%d", ...)`; the first argument is fuel ≥ the digit count). -/
def natDigits : Nat → Nat → List Char
  | 0, _ => []
  | _ + 1, 0 => []
  | fuel + 1, n => natDigits fuel (n / 10) ++ [Char.ofNat (48 + n % 10)]

/-- `sprintf("%d", i)`. -/
def intToChars (i : Int) : List Char :=
  if i = 0 then cs "0"
  else if i < 0 then '-' :: natDigits i.natAbs i.natAbs
  else natDigits i.natAbs i.natAbs

/-- Modelled from the spec: `sprintf("%lf", d)` — fixed six fractional
digits (the binary-double round-to-nearest of the C library is
approximated by round-half-up on the rational; no theorem below depends
on this rendering). -/
def realToLfChars (q : Rat) : List Char :=
  let aq : Rat := if q < 0 then -q else q
  let total : Rat := aq * 1000000
  let fl : Int := total.floor
  let r : Int := fl + (if (1 : Rat) / 2 ≤ total - (fl : Rat) then 1 else 0)
  let ip : Int := r / 1000000
  let fr : Nat := (r % 1000000).toNat
  let ds := if fr = 0 then [] else natDigits fr fr
  (if q < 0 then cs "-" else []) ++ intToChars ip ++
    cs "." ++ List.replicate (6 - ds.length) '0' ++ ds

/-- Modelled from the spec: `escape_single_quotes_ascii` — double every
single quote. -/
def escape_single_quotes : List Char → List Char
  | [] => []
  | c :: rest =>
    if c = squote then squote :: squote :: escape_single_quotes rest
    else c :: escape_single_quotes rest

/-- Loop of `DeescapeQuotedString` after the opening quote: a doubled
quote is a literal quote, a lone quote closes the string. -/
def deescape_loop : List Char → List Char
  | [] => []
  | c :: rest =>
    if c = squote then
      match rest with
      | c2 :: rest2 =>
        if c2 = squote then squote :: deescape_loop rest2 else []
      | [] => []
    else c :: deescape_loop rest

/-- Modelled from the spec: `DeescapeQuotedString` — strip the wrapping
single quotes, collapsing doubled quotes. -/
def deescape_quoted_string (s : List Char) : List Char :=
  deescape_loop (s.drop 1)

/-- Modelled from the spec: `parse_bool` — the boolean word forms,
lower case. -/
def parse_boolM (s : List Char) : Option Bool :=
  if s = cs "true" ∨ s = cs "on" ∨ s = cs "yes" ∨ s = cs "1" then some true
  else if s = cs "false" ∨ s = cs "off" ∨ s = cs "no" ∨ s = cs "0" then some false
  else none

/-- Modelled from the spec: `parse_int` — optional sign and decimal
digits with surrounding whitespace (unit suffixes are not modelled; no
theorem below feeds one). -/
def parse_intM (s : List Char) : Option Int :=
  let t := s.dropWhile isspaceC
  let sgn : Option Bool :=
    match t with
    | c :: _ => if c = '-' then some true else if c = '+' then some false else none
    | [] => none
  let t2 := if sgn.isSome then t.tail else t
  let ds := t2.takeWhile isdigitC
  let rest := (t2.drop ds.length).dropWhile isspaceC
  if ds = [] ∨ rest ≠ [] then none
  else some (if sgn = some true then -(digitsToNat ds : Int) else (digitsToNat ds : Int))

/-- Modelled from the spec: `parse_real` — optional sign, decimal
digits, optional dot and fraction digits. -/
def parse_realM (s : List Char) : Option Rat :=
  let t := s.dropWhile isspaceC
  let sgn : Option Bool :=
    match t with
    | c :: _ => if c = '-' then some true else if c = '+' then some false else none
    | [] => none
  let t2 := if sgn.isSome then t.tail else t
  let ds := t2.takeWhile isdigitC
  let t3 := t2.drop ds.length
  let frac : Option (List Char) :=
    match t3 with
    | c :: r => if c = '.' then some (r.takeWhile isdigitC) else none
    | [] => none
  let t4 :=
    match frac with
    | some f => (t3.drop (1 + f.length)).dropWhile isspaceC
    | none => t3.dropWhile isspaceC
  if ds = [] ∨ t4 ≠ [] then none
  else
    let fr := frac.getD []
    let mag : Rat :=
      (digitsToNat ds : Rat) + (digitsToNat fr : Rat) / ((10 : Rat) ^ fr.length)
    some (if sgn = some true then -mag else mag)

/-- `parse_atomic_type`: de-escape quoted input, dispatch on the four
atomic type names, write the parsed scalar (strings: the literal `nil`
after de-escaping becomes the null string, anything else a freshly
allocated copy).  On failure the target memory keeps its previous
content. -/
def parse_atomic_type (s : List Char) (struct_type : List Char)
    (result : CVal) (ctr : Nat) : parser_res × CVal × Nat :=
  let pe := s.length - 1
  let prepared := if s.getD 0 nullc = squote then deescape_quoted_string s else s
  if struct_type = cs "bool" then
    match parse_boolM prepared with
    | some b => ({ status := .parserOk, parse_end := pe }, .vBool b, ctr)
    | none =>
      ({ status := .parserErr, err := .atomicFailure, parse_end := pe }, result, ctr)
  else if struct_type = cs "int" then
    match parse_intM prepared with
    | some i => ({ status := .parserOk, parse_end := pe }, .vInt i, ctr)
    | none =>
      ({ status := .parserErr, err := .atomicFailure, parse_end := pe }, result, ctr)
  else if struct_type = cs "real" then
    match parse_realM prepared with
    | some q => ({ status := .parserOk, parse_end := pe }, .vReal q, ctr)
    | none =>
      ({ status := .parserErr, err := .atomicFailure, parse_end := pe }, result, ctr)
  else if struct_type = cs "string" then
    if prepared = cs "nil" then
      ({ status := .parserOk, parse_end := pe }, .vString none, ctr)
    else
      ({ status := .parserOk, parse_end := pe }, .vString (some (ctr, prepared)), ctr + 1)
  else
    ({ status := .parserErr, err := .atomicFailure, parse_end := pe }, result, ctr)

/-! ## Serializer (`struct_to_str` and helpers) -/

/-- `atomic_to_str`: render one scalar; wire mode (`serializeB`) quotes
everything, pretty mode quotes only strings whose rendered text differs
from `nil`. -/
def atomic_to_str (v : CVal) (type : List Char) (serializeB : Bool) :
    Option (List Char) :=
  let bufOpt : Option (List Char) :=
    if type = cs "bool" then
      match v with
      | .vBool b => some (if b then cs "true" else cs "false")
      | _ => none
    else if type = cs "int" then
      match v with
      | .vInt i => some (intToChars i)
      | _ => none
    else if type = cs "real" then
      match v with
      | .vReal q => some (realToLfChars q)
      | _ => none
    else if type = cs "string" then
      match v with
      | .vString none => some (cs "nil")
      | .vString (some (_, content)) =>
        some (if serializeB then escape_single_quotes content else content)
      | _ => none
    else none
  match bufOpt with
  | none => none
  | some buf =>
    if serializeB ∨ (type = cs "string" ∧ buf ≠ cs "nil") then
      some (squote :: (buf ++ [squote]))
    else some buf

/-- Comma-separated gluing of rendered parts. -/
def glue_with_comma : List (List Char) → List Char
  | [] => []
  | [p] => p
  | p :: rest => p ++ cs ", " ++ glue_with_comma rest

/-- `name: part` gluing for records. -/
def glue_fields : List (List Char × List Char) → List Char
  | [] => []
  | [(n, p)] => n ++ cs ": " ++ p
  | (n, p) :: rest => n ++ cs ": " ++ p ++ cs ", " ++ glue_fields rest

mutual

def struct_to_str : Nat → Registry → Int → CVal → List Char → Bool → Option (List Char)
  | 0, _, _, _, _, _ => none
  | fuel + 1, reg, thd, v, type, ser =>
    if is_static_array_type type then static_array_to_str fuel reg thd v type ser
    else if is_dynamic_array_type type then dynamic_array_to_str fuel reg thd v type ser
    else structure_to_str fuel reg thd v type ser
termination_by structural f a b c d e => f

/-- The per-element rendering loop shared by both array serializers. -/
def parts_to_str : Nat → Registry → Int → List Char → Bool → List CVal →
    Option (List (List Char))
  | _, _, _, _, _, [] => some []
  | 0, _, _, _, _, _ :: _ => none
  | fuel + 1, reg, thd, etype, ser, e :: es =>
    match struct_to_str fuel reg thd e etype ser with
    | none => none
    | some p =>
      match parts_to_str fuel reg thd etype ser es with
      | none => none
      | some ps => some (p :: ps)
termination_by structural f a b c d e => f

def static_array_to_str : Nat → Registry → Int → CVal → List Char → Bool → Option (List Char)
  | 0, _, _, _, _, _ => none
  | fuel + 1, reg, thd, v, type, ser =>
    match get_array_basic_type type, v with
    | some etype, .vArr es =>
      let n := get_static_array_size type
      if n < 0 ∨ es.length < n.toNat then none
      else
        match parts_to_str fuel reg thd etype ser (es.take n.toNat) with
        | none => none
        | some ps =>
          /- an empty parts vector would make the C read `parts[-1]` -/
          if ps = [] then none
          else some (lbrack :: (glue_with_comma ps ++ [rbrack]))
    | _, _ => none
termination_by structural f a b c d e => f

def dynamic_array_to_str : Nat → Registry → Int → CVal → List Char → Bool → Option (List Char)
  | 0, _, _, _, _, _ => none
  | fuel + 1, reg, thd, v, type, ser =>
    match get_array_basic_type type, v with
    | some etype, .vDynArr d sz =>
      let es := (d.map Prod.snd).getD []
      if es.length < sz.toNat then none
      else
        match parts_to_str fuel reg thd etype ser (es.take sz.toNat) with
        | none => none
        | some ps =>
          if ps = [] then none
          else
            let body := lbrack :: (glue_with_comma ps ++ [rbrack])
            if sz ≥ thd then
              some ((cs "\x7bsize: " ++ intToChars sz ++ cs ", data: ") ++ body ++ [rbrace])
            else some body
    | _, _ => none
termination_by structural f a b c d e => f

/-- The per-field rendering loop of `structure_to_str` (field located
structurally where `get_field_offset` places it). -/
def fields_to_str : Nat → Registry → Int → Bool → List struct_field → List CVal →
    Option (List (List Char × List Char))
  | _, _, _, _, [], _ => some []
  | 0, _, _, _, _ :: _, _ => none
  | fuel + 1, reg, thd, ser, f :: fs, vs =>
    match vs with
    | [] => none
    | v :: rest =>
      match struct_to_str fuel reg thd v f.type ser with
      | none => none
      | some p =>
        match fields_to_str fuel reg thd ser fs rest with
        | none => none
        | some ps => some ((f.name, p) :: ps)
termination_by structural f a b c d e => f

def structure_to_str : Nat → Registry → Int → CVal → List Char → Bool → Option (List Char)
  | 0, _, _, _, _, _ => none
  | fuel + 1, reg, thd, v, type, ser =>
    if is_atomic_type type then atomic_to_str v type ser
    else
      match get_type_definition reg type with
      | none => none
      | some d =>
        match v with
        | .vStruct fs =>
          match fields_to_str fuel reg thd ser (def_fields d) fs with
          | none => none
          | some ps =>
            if ps = [] then none
            else some (lbrace :: (glue_fields ps ++ [rbrace]))
        | _ => none
termination_by structural f a b c d e => f

end

/-! ## Parser -/

/-- Position after walking back over the trailing whitespace before
`pos` (the C writes a terminator there and restores it afterwards; the
embedding truncates instead). -/
def trim_back (s : List Char) (pos : Nat) : Nat :=
  pos - ((s.take pos).reverse.takeWhile isspaceC).length

/-- Position after the whitespace run starting at `pos`. -/
def skip_spaces (s : List Char) (pos : Nat) : Nat :=
  pos + ((s.drop pos).takeWhile isspaceC).length

/-- The field-counting loop of `parse_extended_dynamic_array`: hop from
delimiter to delimiter until the closing brace. -/
def ext_cnt_fields_loop (s : List Char) : Nat → Nat → Nat → Nat
  | 0, _, cnt => cnt
  | fuel + 1, del, cnt =>
    if s.getD del nullc = rbrace then cnt
    else
      let comma := find_same_level_symbol (s.drop (del + 1)) ','
      ext_cnt_fields_loop s fuel (del + 1 + comma.2) (cnt + 1)

def ext_cnt_fields (s : List Char) : Nat :=
  ext_cnt_fields_loop s (s.length + 2) 0 0

/-- The shared reallocation step of `parse_extended_dynamic_array`
(lines guarded by `last_arr_mem_size`): copy-and-zero when the old
buffer was smaller, truncating copy when it was at least as large, and
— when the old buffer was empty — nothing at all, leaving the fresh
malloc content (`junkB`) in place. -/
def ext_copy_elems (junkB : List CVal) (oldElems : List CVal)
    (last_mem new_mem : Int) (last_len new_len : Nat) (zero : CVal) : List CVal :=
  if last_mem ≠ 0 ∧ last_mem < new_mem then
    (oldElems.take last_len ++ List.replicate (last_len - oldElems.length) uninit)
      ++ List.replicate (new_len - last_len) zero
  else if last_mem ≠ 0 then
    let c := oldElems.take new_len
    c ++ List.replicate (new_len - c.length) uninit
  else junkB

/-- `is_assignment_list`: trailing `;` (reading before an empty string
is C undefined behaviour; the embedding answers false). -/
def is_assignment_list (value : List Char) : Bool :=
  match value.getLast? with
  | some c => c = ';'
  | none => false

mutual

/-- `parse_array_element`: optional `index:` prefix (else
`prev_index + 1`), slice out the element text, parse it into element
`index` of the buffer.  An effective index outside the buffer is the
C out-of-bounds write. -/
def parse_array_element : Nat → Junk → Registry → List Char → List Char →
    List CVal → Int → Nat → parser_res × List CVal × Nat
  | 0, _, _, _, _, elems, _, ctr => ({ status := .parserErr, err := .noFuel }, elems, ctr)
  | fuel + 1, junk, reg, s, array_type, elems, prev_index, ctr =>
    match get_array_basic_type array_type with
    | none => ({ status := .parserErr, err := .invalidDefinition }, elems, ctr)
    | some basic_type =>
      let index_state := get_index s
      if index_state.status = .parserErr then
        ({ status := .parserErr, err := index_state.err }, elems, ctr)
      else
        let next_colon_found := index_state.status = .parserOk
        let index : Int := if next_colon_found then index_state.res_int else prev_index + 1
        let next_del := index_state.parse_end
        let next_colon := (find_same_level_symbol s ':').2
        let del_ptr := trim_back s next_del
        let strunc := s.take del_ptr
        let cstart := skip_spaces strunc (if next_colon_found then next_colon + 1 else 0)
        let slice := strunc.drop cstart
        if index < 0 ∨ elems.length ≤ index.toNat then
          ({ status := .parserErr, err := .oobAccess, parse_end := next_del }, elems, ctr)
        else
          let r := parse_composite_impl fuel junk reg slice basic_type
            (elems.getD index.toNat uninit) ctr
          let elems2 := elems.set index.toNat r.2.1
          if r.1.status = .parserErr then
            ({ status := .parserErr, err := r.1.err, parse_end := next_del }, elems2, r.2.2)
          else ({ status := .parserOk, parse_end := next_del }, elems2, r.2.2)
termination_by structural f a b c d e g h => f

/-- `parse_struct_element`: `name:` prefix, field lookup
(`get_field_offset` / `get_field_type_name`), parse the sliced value
text into the selected component. -/
def parse_struct_element : Nat → Junk → Registry → List Char → List Char →
    CVal → Nat → parser_res × CVal × Nat
  | 0, _, _, _, _, res, ctr => ({ status := .parserErr, err := .noFuel }, res, ctr)
  | fuel + 1, junk, reg, s, struct_type, res, ctr =>
    let name_state := get_name s
    if name_state.status ≠ .parserOk then
      ({ status := .parserErr,
         err := if name_state.err = .noErr then .invalidName else name_state.err }, res, ctr)
    else
      let next_del := name_state.parse_end
      match get_field_offset_sel reg struct_type name_state.res_str,
            get_field_type_name reg struct_type name_state.res_str with
      | some sel, some ftype =>
        let next_colon := (find_same_level_symbol s ':').2
        let del_ptr := trim_back s next_del
        let strunc := s.take del_ptr
        let cstart := skip_spaces strunc (next_colon + 1)
        let slice := strunc.drop cstart
        match sel_read res sel with
        | none => ({ status := .parserErr, err := .oobAccess, parse_end := next_del }, res, ctr)
        | some target =>
          let r := parse_composite_impl fuel junk reg slice ftype target ctr
          let res2 := (sel_write res r.2.1 sel).getD res
          if r.1.status = .parserErr then
            ({ status := .parserErr, err := r.1.err, parse_end := next_del }, res2, r.2.2)
          else ({ status := .parserOk, parse_end := next_del }, res2, r.2.2)
      | _, _ =>
        ({ status := .parserErr, err := .invalidName, parse_end := next_del }, res, ctr)
termination_by structural f a b c d e g => f

/-- `parse_prepared_array`: the element loop shared by all array
parsers (cursor starts after the opening bracket). -/
def parse_prepared_array : Nat → Junk → Registry → List Char → List Char →
    List CVal → Nat → parser_res × List CVal × Nat
  | 0, _, _, _, _, elems, ctr => ({ status := .parserErr, err := .noFuel }, elems, ctr)
  | fuel + 1, junk, reg, s, array_type, elems, ctr =>
    parse_prepared_array_loop fuel junk reg s array_type elems 0 1 ctr
termination_by structural f a b c d e g => f

def parse_prepared_array_loop : Nat → Junk → Registry → List Char → List Char →
    List CVal → Int → Nat → Nat → parser_res × List CVal × Nat
  | 0, _, _, _, _, elems, _, _, ctr => ({ status := .parserErr, err := .noFuel }, elems, ctr)
  | fuel + 1, junk, reg, s, array_type, elems, i, c, ctr =>
    if s.getD (c - 1) nullc = rbrack then
      ({ status := .parserOk, parse_end := c - 1 }, elems, ctr)
    else
      let r := parse_array_element fuel junk reg (s.drop c) array_type elems (i - 1) ctr
      if r.1.status = .parserOk then
        parse_prepared_array_loop fuel junk reg s array_type r.2.1 (i + 1)
          (c + r.1.parse_end + 1) r.2.2
      else ({ status := .parserErr, err := r.1.err }, r.2.1, r.2.2)
termination_by structural f a b c d e g h i => f

/-- `parse_static_array`: bound check `max_index > N` (note: not `≥`),
then the element loop over the in-place buffer. -/
def parse_static_array : Nat → Junk → Registry → List Char → List Char →
    CVal → Nat → parser_res × CVal × Nat
  | 0, _, _, _, _, res, ctr => ({ status := .parserErr, err := .noFuel }, res, ctr)
  | fuel + 1, junk, reg, s, array_type, res, ctr =>
    let arr_size := get_static_array_size array_type
    if arr_size < 0 then ({ status := .parserErr, err := .invalidDefinition }, res, ctr)
    else
      let check_res := check_array_shape s
      if check_res.status = .parserOk then
        if check_res.res_int > arr_size then
          ({ status := .parserErr, err := .indexOutOfBounds,
             parse_end := check_res.parse_end }, res, ctr)
        else
          match res with
          | .vArr elems =>
            let r := parse_prepared_array fuel junk reg s array_type elems ctr
            (r.1, .vArr r.2.1, r.2.2)
          | _ => ({ status := .parserErr, err := .oobAccess }, res, ctr)
      else ({ status := .parserErr, err := check_res.err }, res, ctr)
termination_by structural f a b c d e g => f

/-- `parse_dynamic_array` (short `[...]` form): new length
`max(max_index + 1, previous length)`, fresh buffer = old elements
copied then zero fill (`memcpy` + unconditional `memset`), old buffer
freed, then the element loop on the new buffer. -/
def parse_dynamic_array : Nat → Junk → Registry → List Char → List Char →
    CVal → Nat → parser_res × CVal × Nat
  | 0, _, _, _, _, res, ctr => ({ status := .parserErr, err := .noFuel }, res, ctr)
  | fuel + 1, junk, reg, s, array_type, res, ctr =>
    match res with
    | .vDynArr d sz =>
      match get_array_basic_type array_type with
      | none => ({ status := .parserErr, err := .invalidDefinition }, res, ctr)
      | some basic =>
        let last_arr_len := sz
        let last_mem := get_dynamic_array_mem_size_with_length reg array_type last_arr_len
        if last_mem < 0 then ({ status := .parserErr, err := .invalidDefinition }, res, ctr)
        else
          let check_res := check_array_shape s
          if check_res.status ≠ .parserOk then
            ({ status := .parserErr, err := check_res.err }, res, ctr)
          else
            let max_idx := check_res.res_int
            let arr_len := if max_idx + 1 > last_arr_len then max_idx + 1 else last_arr_len
            let oldElems := (d.map Prod.snd).getD []
            let copied := oldElems.take last_arr_len.toNat ++
              List.replicate (last_arr_len.toNat - oldElems.length) uninit
            let newElems := copied ++
              List.replicate (arr_len.toNat - last_arr_len.toNat) (zeroValueF fuel reg basic)
            let r := parse_prepared_array fuel junk reg s array_type newElems (ctr + 1)
            (r.1, .vDynArr (some (ctr, r.2.1)) arr_len, r.2.2)
    | _ => ({ status := .parserErr, err := .oobAccess }, res, ctr)
termination_by structural f a b c d e g => f

/-- `parse_extended_dynamic_array` up to the `size` field: braces, not
empty, at most two fields, optional `size` parsed through
`parse_struct_element` into a `DynArrTmp` initialised to
`{NULL, -1}`. -/
def parse_extended_dynamic_array : Nat → Junk → Registry → List Char → List Char →
    CVal → Nat → parser_res × CVal × Nat
  | 0, _, _, _, _, res, ctr => ({ status := .parserErr, err := .noFuel }, res, ctr)
  | fuel + 1, junk, reg, s, array_type, res, ctr =>
    match res with
    | .vDynArr d sz =>
      match get_array_basic_type array_type with
      | none => ({ status := .parserErr, err := .invalidDefinition }, res, ctr)
      | some basic =>
        let last_arr_len := sz
        let last_mem := get_dynamic_array_mem_size_with_length reg array_type last_arr_len
        if last_mem < 0 then ({ status := .parserErr, err := .invalidDefinition }, res, ctr)
        else
          match check_braces s lbrace rbrace with
          | none => ({ status := .parserErr, err := .invalidDefinition }, res, ctr)
          | some pe =>
            if is_empty_array s pe then
              ({ status := .parserErr, err := .invalidDefinition }, res, ctr)
            else
              let cnt := ext_cnt_fields s
              if cnt > 2 then
                ({ status := .parserErr, err := .invalidDefinition }, res, ctr)
              else
                let sres := find_field s (cs "size")
                if sres.status = .parserErr then
                  ({ status := .parserErr, err := sres.err }, res, ctr)
                else if sres.status = .parserNotFound ∧ cnt > 1 then
                  ({ status := .parserErr, err := .invalidDefinition }, res, ctr)
                else if sres.status = .parserOk then
                  let r := parse_struct_element fuel junk reg (s.drop sres.res_pos)
                    array_type (.vDynArr none (-1)) ctr
                  if r.1.status = .parserErr then
                    ({ status := .parserErr, err := r.1.err }, res, r.2.2)
                  else
                    let arr_len := match r.2.1 with | .vDynArr _ n => n | _ => -1
                    parse_ext_after_size fuel junk reg s array_type basic
                      last_arr_len last_mem pe cnt d res arr_len r.2.2
                else
                  parse_ext_after_size fuel junk reg s array_type basic
                    last_arr_len last_mem pe cnt d res (-1) ctr
    | _ => ({ status := .parserErr, err := .oobAccess }, res, ctr)
termination_by structural f a b c d e g => f

/-- `parse_extended_dynamic_array` after the `size` stage (`arr_len` is
-1 when `size` was absent): resize-only when `data` is absent, else the
size/max-index conflict check and the element loop on the reallocated
buffer. -/
def parse_ext_after_size : Nat → Junk → Registry → List Char → List Char →
    List Char → Int → Int → Nat → Nat → Option (Nat × List CVal) → CVal →
    Int → Nat → parser_res × CVal × Nat
  | 0, _, _, _, _, _, _, _, _, _, _, res, _, ctr =>
    ({ status := .parserErr, err := .noFuel }, res, ctr)
  | fuel + 1, junk, reg, s, array_type, basic, last_arr_len, last_mem, pe, cnt,
      dOld, res, arr_len, ctr =>
    let dres := find_field s (cs "data")
    if dres.status = .parserErr then
      ({ status := .parserErr, err := dres.err }, res, ctr)
    else if dres.status = .parserNotFound then
      if cnt > 1 then ({ status := .parserErr, err := .invalidDefinition }, res, ctr)
      else if arr_len < 0 then
        ({ status := .parserErr, err := .invalidDefinition }, res, ctr)
      else
        let new_mem := get_dynamic_array_mem_size_with_length reg array_type arr_len
        let oldElems := (dOld.map Prod.snd).getD []
        let newElems := ext_copy_elems (junkBlock junk ctr arr_len.toNat) oldElems
          last_mem new_mem last_arr_len.toNat arr_len.toNat (zeroValueF fuel reg basic)
        ({ status := .parserOk, parse_end := pe },
          .vDynArr (some (ctr, newElems)) arr_len, ctr + 1)
    else
      let data_st := dres.res_pos
      let colon := (find_same_level_symbol (s.drop data_st) ':').2
      let c := skip_spaces s (data_st + colon + 1)
      let cres := check_array_shape (s.drop c)
      if cres.status ≠ .parserOk then
        ({ status := .parserErr, err := cres.err }, res, ctr)
      else
        let max_idx := cres.res_int
        let lenOrConflict : Option Int :=
          if arr_len = -1 then
            some (if max_idx + 1 > last_arr_len then max_idx + 1 else last_arr_len)
          else if arr_len ≤ max_idx then none
          else some arr_len
        match lenOrConflict with
        | none => ({ status := .parserErr, err := .indexOutOfBounds }, res, ctr)
        | some arr_len2 =>
          let new_mem := get_dynamic_array_mem_size_with_length reg array_type arr_len2
          let oldElems := (dOld.map Prod.snd).getD []
          let newElems := ext_copy_elems (junkBlock junk ctr arr_len2.toNat) oldElems
            last_mem new_mem last_arr_len.toNat arr_len2.toNat (zeroValueF fuel reg basic)
          let r := parse_prepared_array fuel junk reg (s.drop c) array_type newElems (ctr + 1)
          (r.1, .vDynArr (some (ctr, r.2.1)) arr_len2, r.2.2)
termination_by structural f a b c d e g h i j k l m n => f

/-- `parse_structure`: atomics go to the atomic parser; otherwise the
braces are checked and the field loop runs. -/
def parse_structure : Nat → Junk → Registry → List Char → List Char →
    CVal → Nat → parser_res × CVal × Nat
  | 0, _, _, _, _, res, ctr => ({ status := .parserErr, err := .noFuel }, res, ctr)
  | fuel + 1, junk, reg, s, struct_type, res, ctr =>
    if is_atomic_type struct_type then parse_atomic_type s struct_type res ctr
    else
      match check_braces s lbrace rbrace with
      | none => ({ status := .parserErr, err := .invalidDefinition }, res, ctr)
      | some _ => parse_structure_loop fuel junk reg s struct_type res 1 ctr
termination_by structural f a b c d e g => f

def parse_structure_loop : Nat → Junk → Registry → List Char → List Char →
    CVal → Nat → Nat → parser_res × CVal × Nat
  | 0, _, _, _, _, res, _, ctr => ({ status := .parserErr, err := .noFuel }, res, ctr)
  | fuel + 1, junk, reg, s, struct_type, res, c, ctr =>
    if s.getD (c - 1) nullc = rbrace then
      ({ status := .parserOk, parse_end := c - 1 }, res, ctr)
    else
      let r := parse_struct_element fuel junk reg (s.drop c) struct_type res ctr
      if r.1.status = .parserOk then
        parse_structure_loop fuel junk reg s struct_type r.2.1 (c + r.1.parse_end + 1) r.2.2
      else ({ status := .parserErr, err := r.1.err }, r.2.1, r.2.2)
termination_by structural f a b c d e g h => f

/-- `parse_composite_impl`: dispatch on the type shape (a dynamic array
whose literal starts with a brace takes the extended form). -/
def parse_composite_impl : Nat → Junk → Registry → List Char → List Char →
    CVal → Nat → parser_res × CVal × Nat
  | 0, _, _, _, _, res, ctr => ({ status := .parserErr, err := .noFuel }, res, ctr)
  | fuel + 1, junk, reg, value, type, result, ctr =>
    if is_static_array_type type then
      parse_static_array fuel junk reg value type result ctr
    else if is_dynamic_array_type type then
      if value.getD 0 nullc = lbrace then
        parse_extended_dynamic_array fuel junk reg value type result ctr
      else parse_dynamic_array fuel junk reg value type result ctr
    else parse_structure fuel junk reg value type result ctr
termination_by structural f a b c d e g => f

/-- `parse_composite`: the entry point.  A trailing `;` routes to the
patch list.  Otherwise the target is freshly allocated (content
`dest0`), deep-copied from `prev_val` or zero-filled, parsed in place;
on success the new value is stored, on parse error it is freed and NULL
is stored. -/
def parse_composite : Nat → Junk → Registry → List Char → List Char →
    Option CVal → CVal → Nat → Bool × Option CVal × Nat
  | 0, _, _, _, _, _, _, ctr => (false, none, ctr)
  | fuel + 1, junk, reg, value, type, prev_val, dest0, ctr =>
    if is_assignment_list value then
      parse_placeholder_patch_list fuel junk reg value type prev_val ctr
    else
      let dup0 : CVal × Nat :=
        match prev_val with
        | some p => struct_dup_impl fuel reg dest0 p type ctr
        | none => (zeroValueF fuel reg type, ctr)
      let r := parse_composite_impl fuel junk reg value type dup0.1 dup0.2
      match r.1.status with
      | .parserOk => (true, some r.2.1, r.2.2)
      | .parserErr => (false, none, r.2.2)
      | _ => (true, none, r.2.2)
termination_by structural f a b c d e g h => f

/-- `parse_placeholder_patch_list`: duplicate the previous value, apply
the `;`-separated patches left to right; on a failing step the
accumulator so far is returned with the failure flag. -/
def parse_placeholder_patch_list : Nat → Junk → Registry → List Char → List Char →
    Option CVal → Nat → Bool × Option CVal × Nat
  | 0, _, _, _, _, _, ctr => (false, none, ctr)
  | fuel + 1, junk, reg, value, type, prev_val, ctr =>
    let l0 := struct_dup fuel reg uninit prev_val type ctr
    patch_list_loop fuel junk reg value type 0 l0.1 l0.2
termination_by structural f a b c d e g => f

def patch_list_loop : Nat → Junk → Registry → List Char → List Char →
    Nat → Option CVal → Nat → Bool × Option CVal × Nat
  | 0, _, _, _, _, _, last, ctr => (false, last, ctr)
  | fuel + 1, junk, reg, value, type, cur, last, ctr =>
    if value.getD cur nullc = nullc then (true, last, ctr)
    else
      let nrel := (find_same_level_symbol (value.drop cur) ';').2
      let slice := (value.drop cur).take nrel
      let r := parse_composite fuel junk reg slice type last uninit ctr
      if r.1 = false then (false, last, r.2.2)
      else patch_list_loop fuel junk reg value type (cur + nrel + 1) r.2.1 r.2.2
termination_by structural f a b c d e g h => f

end

/-! ## Registration (`init_type_definition`) -/

/-- `strtok_r` splitting: cut at any delimiter, drop empty tokens. -/
def strtok_split (dels : List Char) (s : List Char) : List (List Char) :=
  (s.splitOnP (fun c => dels.contains c)).filter (· ≠ [])

/-- The whitespace delimiters of a field definition (`" \t\n\v"`). -/
def word_dels : List Char := [' ', Char.ofNat 9, Char.ofNat 10, Char.ofNat 11]

/-- The layout fold of `init_type_definition`: per field, validate the
type, track the maximal alignment, round the running offset up to the
field's alignment, advance by its size. -/
def init_layout_loop (reg : Registry) : List struct_field → Int → Int → Option (Int × Int)
  | [], curr, mx => some (curr, mx)
  | f :: fs, curr, mx =>
    let type_offset := get_type_offset reg f.type
    let type_size := get_type_size reg f.type
    if type_offset < 0 ∨ type_size < 0 then none
    else
      let mx2 := if type_offset > mx then type_offset else mx
      let curr2 :=
        if curr % type_offset ≠ 0 then curr + (type_offset - curr % type_offset)
        else curr
      init_layout_loop reg fs (curr2 + type_size) mx2

/-- The default field for positional access in the layout lemmas. -/
def fdefault : struct_field := { name := [], type := [] }

/-- The per-field offsets the layout fold assigns: each field starts at
the running offset rounded up to its alignment (the same rounding
`get_struct_field_offset` replays). -/
def layout_offsets (reg : Registry) : List struct_field → Int → List Int
  | [], _ => []
  | f :: fs, curr =>
    let a := get_type_offset reg f.type
    let curr2 := if curr % a ≠ 0 then curr + (a - curr % a) else curr
    curr2 :: layout_offsets reg fs (curr2 + get_type_size reg f.type)

/-- `init_type_definition`: parse the signature (`;`-separated fields of
exactly two whitespace-separated words), run the layout fold, round the
total size up to the record alignment.  Failures (`ereport(ERROR, ...)`)
are `none`.  `cnt_fields` is the delimiter count plus one, as in the C
(which can exceed the parsed field count for a trailing `;`).  The final
rounding is skipped when the alignment is 0, where the C would divide by
zero. -/
def init_type_definition (reg : Registry) (tyname sig : List Char) :
    Option type_definition :=
  if sig = [] then none
  else
    let count_fields : Int := 1 + (sig.countP (· = ';') : Nat)
    let toks := strtok_split [';'] sig
    let fieldsOpt : Option (List struct_field) :=
      toks.mapM (fun tok =>
        match strtok_split word_dels tok with
        | [ty, nm] => some { name := nm, type := ty }
        | _ => none)
    match fieldsOpt with
    | none => none
    | some fields =>
      match init_layout_loop reg fields 0 0 with
      | none => none
      | some (curr, mx) =>
        let total :=
          if mx ≠ 0 ∧ curr % mx ≠ 0 then curr + (mx - curr % mx) else curr
        some { type := tyname, signature := sig, cnt_fields := count_fields,
               fields := fields, type_size := total, offset := mx }

/-! ## Conformance

`conformF reg t v` states that the byte buffer the structural value `v`
stands for is a well-formed inhabitant of type `t` (the shapes the C
code produces and consumes); fuel is consumed exactly where `struct_cmp`
consumes it.  `dynArrFreeF` states that no variable array is reachable
from a type through the registry: dynamic arrays are rejected, static
arrays follow the element type, registered records with fields follow
every field, and leaf types (atomic per the registry, or unregistered —
the comparison code touches no component of either) pass. -/

/-- No duplicate field names (the C locates record fields by name, the
embedding by position; they coincide exactly for duplicate-free
records). -/
def names_nodup : List (List Char) → Bool
  | [] => true
  | n :: ns => (!ns.contains n) && names_nodup ns

mutual

def conformF : Nat → Registry → List Char → CVal → Bool
  | 0, _, _, _ => false
  | fuel + 1, reg, t, v =>
    if is_static_array_type t then
      match get_array_basic_type t, v with
      | some b, .vArr es =>
        es.length = (get_static_array_size t).toNat && conform_list fuel reg b es
      | _, _ => false
    else if is_dynamic_array_type t then
      match get_array_basic_type t, v with
      | some b, .vDynArr dOpt sz =>
        decide (0 ≤ sz) &&
        (match dOpt with
          | none => sz = 0
          | some (_, es) => es.length = sz.toNat && conform_list fuel reg b es)
      | _, _ => false
    else if is_atomic_type t then
      (match get_type_definition reg t with
        | some d => d.cnt_fields = 0
        | none => false) &&
      (if t = cs "bool" then (match v with | .vBool _ => true | _ => false)
       else if t = cs "int" then (match v with | .vInt _ => true | _ => false)
       else if t = cs "real" then (match v with | .vReal _ => true | _ => false)
       else (match v with | .vString _ => true | _ => false))
    else
      match get_type_definition reg t, v with
      | some d, .vStruct fs =>
        names_nodup ((def_fields d).map (·.name)) &&
        decide (0 < d.cnt_fields) &&
        d.cnt_fields = (d.fields.length : Int) &&
        fs.length = (def_fields d).length &&
        conform_fields fuel reg (def_fields d) fs
      | _, _ => false
termination_by structural f a b c => f

def conform_list : Nat → Registry → List Char → List CVal → Bool
  | _, _, _, [] => true
  | 0, _, _, _ :: _ => false
  | fuel + 1, reg, b, e :: es => conformF fuel reg b e && conform_list fuel reg b es
termination_by structural f a b c => f

def conform_fields : Nat → Registry → List struct_field → List CVal → Bool
  | _, _, [], [] => true
  | 0, _, _ :: _, _ => false
  | fuel + 1, reg, f :: fs, v :: vs =>
    conformF fuel reg f.type v && conform_fields fuel reg fs vs
  | _, _, _, _ => false
termination_by structural f a b c => f

end

mutual

def dynArrFreeF : Nat → Registry → List Char → Bool
  | 0, _, _ => false
  | fuel + 1, reg, t =>
    if is_dynamic_array_type t then false
    else if is_static_array_type t then
      match get_array_basic_type t with
      | some b => dynArrFreeF fuel reg b
      | none => false
    else
      match get_type_definition reg t with
      | some d => d.cnt_fields = 0 || dynArrFree_fields fuel reg (def_fields d)
      | none => true
termination_by structural f a b => f

def dynArrFree_fields : Nat → Registry → List struct_field → Bool
  | _, _, [] => true
  | 0, _, _ :: _ => false
  | fuel + 1, reg, f :: fs => dynArrFreeF fuel reg f.type && dynArrFree_fields fuel reg fs
termination_by structural f a b => f

end

/-! ## Registries

The atomic entries stand for the built-in registrations the settings
subsystem performs outside this repository; the demo entries are the
registry state after the spec's scenario
`register_type("node", "string name; string ip; int port")`,
`register_type("cluster", "string name; int size; node[10] nodes")`
and a one-string-field record used by the round-trip theorems. -/

/-- Modelled from the spec: the built-in atomic type registrations
(`bool` 1-byte, `int` host int, `real` host double, `string` one owning
pointer, each at natural alignment on the 64-bit host). -/
def baseRegistry : Registry :=
  [ { type := cs "bool", signature := [], cnt_fields := 0, fields := [],
      type_size := 1, offset := 1 },
    { type := cs "int", signature := [], cnt_fields := 0, fields := [],
      type_size := 4, offset := 4 },
    { type := cs "real", signature := [], cnt_fields := 0, fields := [],
      type_size := 8, offset := 8 },
    { type := cs "string", signature := [], cnt_fields := 0, fields := [],
      type_size := 8, offset := 8 } ]

def nodeDef : type_definition :=
  { type := cs "node", signature := cs "string name; string ip; int port",
    cnt_fields := 3,
    fields := [ { name := cs "name", type := cs "string" },
                { name := cs "ip", type := cs "string" },
                { name := cs "port", type := cs "int" } ],
    type_size := 24, offset := 8 }

def clusterDef : type_definition :=
  { type := cs "cluster", signature := cs "string name; int size; node[10] nodes",
    cnt_fields := 3,
    fields := [ { name := cs "name", type := cs "string" },
                { name := cs "size", type := cs "int" },
                { name := cs "nodes", type := cs "node[10]" } ],
    type_size := 256, offset := 8 }

def strrecDef : type_definition :=
  { type := cs "strrec", signature := cs "string f",
    cnt_fields := 1,
    fields := [ { name := cs "f", type := cs "string" } ],
    type_size := 8, offset := 8 }

def demoReg : Registry :=
  strrecDef :: nodeDef :: clusterDef :: baseRegistry

/-- The comparison values the C contract admits: -1, 0, 1, and the
error code 2 (unknown type / exhausted fuel). -/
def cmpR (x : Int) : Prop := x = -1 ∨ x = 0 ∨ x = 1 ∨ x = 2

/-! ## General lemmas about the embedded operations -/

theorem static_not_dynamic {t : List Char} (h : is_static_array_type t = true) :
    is_dynamic_array_type t = false := by
  unfold is_static_array_type at h
  unfold is_dynamic_array_type
  cases hb : strchrPos t lbrack with
  | none => simp [hb] at h
  | some i =>
    rw [hb] at h
    have h2 : (if (strchrPos t rbrack).isNone = true then false
        else decide (atoiL (t.drop (i + 1)) > 0)) = true := h
    show (if (strchrPos t rbrack).isNone = true then false
        else decide (atoiL (t.drop (i + 1)) ≤ 0)) = false
    by_cases hr : (strchrPos t rbrack).isNone = true
    · rw [if_pos hr] at h2; cases h2
    · rw [if_neg hr] at h2 ⊢
      simp only [decide_eq_true_eq] at h2
      simp only [decide_eq_false_iff_not, not_le]
      omega

theorem idsOfList_append (l1 l2 : List CVal) :
    idsOfList (l1 ++ l2) = idsOfList l1 ++ idsOfList l2 := by
  induction l1 with
  | nil => simp [idsOfList]
  | cons v vs ih => simp [idsOfList, ih]

theorem idsOfList_replicate_uninit (n : Nat) :
    idsOfList (List.replicate n uninit) = [] := by
  induction n with
  | zero => rfl
  | succ k ih =>
    rw [List.replicate_succ]
    show idsOf uninit ++ idsOfList (List.replicate k uninit) = []
    rw [ih]
    rfl

/-- Freshness of duplication: the allocation counter never decreases,
and every owned resource of the copy either was already in the
(uninitialised) destination memory or is a fresh allocation made during
the call. -/
theorem dup_ids_bound (reg : Registry) : ∀ fuel : Nat,
    (∀ (dest src : CVal) (type : List Char) (ctr : Nat),
      ctr ≤ (struct_dup_impl fuel reg dest src type ctr).2 ∧
      ∀ id ∈ idsOf (struct_dup_impl fuel reg dest src type ctr).1,
        id ∈ idsOf dest ∨ (ctr ≤ id ∧ id < (struct_dup_impl fuel reg dest src type ctr).2)) ∧
    (∀ (dest src : CVal) (type : List Char) (ctr : Nat),
      ctr ≤ (static_array_duplicate fuel reg dest src type ctr).2 ∧
      ∀ id ∈ idsOf (static_array_duplicate fuel reg dest src type ctr).1,
        id ∈ idsOf dest ∨
          (ctr ≤ id ∧ id < (static_array_duplicate fuel reg dest src type ctr).2)) ∧
    (∀ (basic : List Char) (ds ss : List CVal) (ctr : Nat),
      ctr ≤ (dup_list fuel reg basic ds ss ctr).2 ∧
      ∀ id ∈ idsOfList (dup_list fuel reg basic ds ss ctr).1,
        id ∈ idsOfList ds ∨ (ctr ≤ id ∧ id < (dup_list fuel reg basic ds ss ctr).2)) ∧
    (∀ (dest src : CVal) (type : List Char) (ctr : Nat),
      ctr ≤ (dynamic_array_duplicate fuel reg dest src type ctr).2 ∧
      ∀ id ∈ idsOf (dynamic_array_duplicate fuel reg dest src type ctr).1,
        id ∈ idsOf dest ∨
          (ctr ≤ id ∧ id < (dynamic_array_duplicate fuel reg dest src type ctr).2)) ∧
    (∀ (fs : List struct_field) (ds ss : List CVal) (ctr : Nat),
      ctr ≤ (dup_fields fuel reg fs ds ss ctr).2 ∧
      ∀ id ∈ idsOfList (dup_fields fuel reg fs ds ss ctr).1,
        id ∈ idsOfList ds ∨ (ctr ≤ id ∧ id < (dup_fields fuel reg fs ds ss ctr).2)) ∧
    (∀ (dest src : CVal) (type : List Char) (ctr : Nat),
      ctr ≤ (struct_duplicate fuel reg dest src type ctr).2 ∧
      ∀ id ∈ idsOf (struct_duplicate fuel reg dest src type ctr).1,
        id ∈ idsOf dest ∨ (ctr ≤ id ∧ id < (struct_duplicate fuel reg dest src type ctr).2)) := by
  intro fuel
  induction fuel with
  | zero =>
    refine ⟨?_, ?_, ?_, ?_, ?_, ?_⟩ <;> intro a b c d <;>
      exact ⟨Nat.le_refl _, fun id h => Or.inl h⟩
  | succ n ih =>
    obtain ⟨ihImpl, ihStat, ihList, ihDyn, ihFields, ihStruct⟩ := ih
    refine ⟨?_, ?_, ?_, ?_, ?_, ?_⟩
    · -- struct_dup_impl
      intro dest src type ctr
      simp only [struct_dup_impl]
      split
      · exact ihStat dest src type ctr
      · split
        · exact ihDyn dest src type ctr
        · exact ihStruct dest src type ctr
    · -- static_array_duplicate
      intro dest src type ctr
      simp only [static_array_duplicate]
      split
      · next basic ds ss _ =>
        obtain ⟨h1, h2⟩ :=
          ihList basic (ds.take (get_static_array_size type).toNat)
            (ss.take (get_static_array_size type).toNat) ctr
        refine ⟨h1, ?_⟩
        have hsplit : idsOfList ds =
            idsOfList (ds.take (get_static_array_size type).toNat) ++
              idsOfList (ds.drop (get_static_array_size type).toNat) := by
          rw [← idsOfList_append, List.take_append_drop]
        intro id hid
        simp only [idsOf, idsOfList_append] at hid
        rw [List.mem_append] at hid
        rcases hid with hid | hid
        · rcases h2 id hid with hd | hf
          · left
            show id ∈ idsOfList ds
            rw [hsplit, List.mem_append]
            exact Or.inl hd
          · exact Or.inr hf
        · left
          show id ∈ idsOfList ds
          rw [hsplit, List.mem_append]
          exact Or.inr hid
      · exact ⟨Nat.le_refl _, fun id h => Or.inl h⟩
    · -- dup_list
      intro basic ds ss ctr
      cases ds with
      | nil => simp [dup_list, idsOfList]
      | cons d rest =>
        simp only [dup_list]
        obtain ⟨ha1, ha2⟩ := ihImpl d (ss.headD uninit) basic ctr
        obtain ⟨hb1, hb2⟩ :=
          ihList basic rest ss.tail (struct_dup_impl n reg d (ss.headD uninit) basic ctr).2
        constructor
        · omega
        · intro id hid
          simp only [idsOfList] at hid
          rw [List.mem_append] at hid
          simp only [idsOfList, List.mem_append]
          rcases hid with hid | hid
          · rcases ha2 id hid with h | h
            · exact Or.inl (Or.inl h)
            · right; omega
          · rcases hb2 id hid with h | h
            · exact Or.inl (Or.inr h)
            · right; omega
    · -- dynamic_array_duplicate
      intro dest src type ctr
      simp only [dynamic_array_duplicate]
      split
      · next d sz =>
        split
        · simp [idsOf]
        · split
          · exact ⟨Nat.le_refl _, fun id h => Or.inl h⟩
          · next basic _ =>
            obtain ⟨h1, h2⟩ :=
              ihList basic (List.replicate sz.toNat uninit)
                (((d.map Prod.snd).getD []).take sz.toNat ++
                  List.replicate (sz.toNat - ((d.map Prod.snd).getD []).length) uninit)
                (ctr + 1)
            constructor
            · omega
            · intro id hid
              simp only [idsOf, List.mem_cons] at hid
              rcases hid with rfl | hid
              · right; omega
              · rcases h2 id hid with h | h
                · rw [idsOfList_replicate_uninit] at h
                  simp at h
                · right; omega
      · exact ⟨Nat.le_refl _, fun id h => Or.inl h⟩
    · -- dup_fields
      intro fs ds ss ctr
      cases fs with
      | nil => exact ⟨Nat.le_refl _, fun id h => Or.inl h⟩
      | cons f fsrest =>
        simp only [dup_fields]
        obtain ⟨ha1, ha2⟩ := ihImpl (ds.headD uninit) (ss.headD uninit) f.type ctr
        obtain ⟨hb1, hb2⟩ :=
          ihFields fsrest ds.tail ss.tail
            (struct_dup_impl n reg (ds.headD uninit) (ss.headD uninit) f.type ctr).2
        constructor
        · omega
        · intro id hid
          simp only [idsOfList] at hid
          rw [List.mem_append] at hid
          rcases hid with hid | hid
          · rcases ha2 id hid with h | h
            · left
              cases ds with
              | nil => simp [uninit, idsOf, idsOfList] at h
              | cons d0 drest =>
                simp only [List.headD_cons] at h
                simp only [idsOfList, List.mem_append]
                exact Or.inl h
            · right; omega
          · rcases hb2 id hid with h | h
            · left
              cases ds with
              | nil => simp [idsOfList] at h
              | cons d0 drest =>
                simp only [List.tail_cons] at h
                simp only [idsOfList, List.mem_append]
                exact Or.inr h
            · right; omega
    · -- struct_duplicate
      intro dest src type ctr
      simp only [struct_duplicate]
      split
      · exact ⟨Nat.le_refl _, fun id h => Or.inl h⟩
      · split
        · split
          · -- string branch
            split <;>
              first
                | exact ⟨Nat.le_refl _, fun id h => Or.inl h⟩
                | (refine ⟨Nat.le_refl _, ?_⟩; intro id hid; simp [idsOf] at hid)
                | (refine ⟨by omega, ?_⟩; intro id hid;
                   simp only [idsOf, List.mem_singleton] at hid; subst hid;
                   exact Or.inr (by omega))
          · -- memcpy branch: scalar copies carry no identifiers
            split <;>
              first
                | exact ⟨Nat.le_refl _, fun id h => Or.inl h⟩
                | (refine ⟨Nat.le_refl _, ?_⟩; intro id hid; simp [idsOf] at hid)
        · -- field loop
          split
          · rename_i dfs sfs
            obtain ⟨h1, h2⟩ := ihFields (def_fields _) dfs sfs ctr
            refine ⟨h1, ?_⟩
            intro id hid
            simp only [idsOf] at hid
            rcases h2 id hid with h | h
            · left; simpa [idsOf] using h
            · exact Or.inr h
          · exact ⟨Nat.le_refl _, fun id h => Or.inl h⟩

/-! ## Claim theorems -/

/-- C1: the claim states that for every valid value `v` of a registered
composite type `T`, parsing the wire-mode serialization of `v` with no
previous value yields a value comparing equal to `v`.  The code violates
this: for a record holding the three-character string `nil`, wire
serialization produces `{f: 'nil'}`, but `parse_atomic_type` tests for
the `nil` token only after de-quoting, so the parsed value holds the
null string and the comparison returns -1, not 0. -/
theorem wire_roundtrip_nil_string_collapses_to_null :
    struct_to_str 50 demoReg 3 (.vStruct [.vString (some (0, cs "nil"))]) (cs "strrec") true
      = some (lbrace :: (cs "f: " ++ (squote :: (cs "nil" ++ [squote])) ++ [rbrace])) ∧
    parse_composite 90 (fun _ _ => uninit) demoReg
        (lbrace :: (cs "f: " ++ (squote :: (cs "nil" ++ [squote])) ++ [rbrace]))
        (cs "strrec") none uninit 10
      = (true, some (.vStruct [.vString none]), 10) ∧
    struct_cmp 50 demoReg (cs "strrec")
        (.vStruct [.vString none]) (.vStruct [.vString (some (0, cs "nil"))]) = -1 :=
  ⟨rfl, rfl, rfl⟩

/-- C2: the claim states that a fixed-array literal whose maximum
effective index equals or exceeds the declared count `N` fails with
`IndexOutOfBounds`.  The bound check of `parse_static_array` is
`max_index > N`, not `≥ N`: for `node[10]`, index 11 is rejected with
`IndexOutOfBounds`, but index 10 passes the check and the element parse
then writes outside the ten-element buffer (the embedded `oobAccess`
marker; in C, an out-of-bounds heap write). -/
theorem static_array_index_equal_to_count_not_rejected :
    (parse_static_array 90 (fun _ _ => uninit) demoReg
        (cs "[11: \x7bport: 1\x7d]") (cs "node[10]")
        (zeroValueF 20 demoReg (cs "node[10]")) 0).1.err = .indexOutOfBounds ∧
    (parse_static_array 90 (fun _ _ => uninit) demoReg
        (cs "[10: \x7bport: 1\x7d]") (cs "node[10]")
        (zeroValueF 20 demoReg (cs "node[10]")) 0).1.err = .oobAccess ∧
    (parse_static_array 90 (fun _ _ => uninit) demoReg
        (cs "[10: \x7bport: 1\x7d]") (cs "node[10]")
        (zeroValueF 20 demoReg (cs "node[10]")) 0).1.err ≠ .indexOutOfBounds :=
  ⟨rfl, rfl, by decide⟩

/-- C3: the claim states that `free(v, T)` releases every transitively
owned string and variable-array buffer exactly once, including strings
held inside the elements of a variable-array buffer.  The code violates
this: `free_aux_mem_dyn_arr` uses `get_static_array_size` (zero or
negative for every dynamic array type) as its element loop bound, so for
a `string[]` value owning the buffer (id 7) and one element string
(id 3) it releases only the buffer and the root — the element string is
never freed. -/
theorem free_struct_skips_dynamic_array_element_strings :
    (free_struct 50 demoReg 99 (cs "string[]")
        (.vDynArr (some (7, [.vString (some (3, cs "a"))])) 1)).1 = [7, 99] ∧
    idsOf (.vDynArr (some (7, [.vString (some (3, cs "a"))])) 1) = [7, 3] ∧
    3 ∉ (free_struct 50 demoReg 99 (cs "string[]")
        (.vDynArr (some (7, [.vString (some (3, cs "a"))])) 1)).1 :=
  ⟨rfl, rfl, by decide⟩

/-- C4 (counterexample): the claim states that `compare` returns exactly
one of -1, 0, 1 for every two values of a registered composite type, in
particular for variable arrays whose lengths differ by more than one.
`dynamic_array_cmp` returns the raw length difference: for two
conformant `int[]` values of lengths 5 and 1 it returns 4. -/
theorem struct_cmp_returns_length_difference_outside_range :
    struct_cmp 50 demoReg (cs "int[]")
      (.vDynArr (some (0, [.vInt 1, .vInt 1, .vInt 1, .vInt 1, .vInt 1])) 5)
      (.vDynArr (some (1, [.vInt 1])) 1) = 4 ∧
    ¬ ((4 : Int) = -1 ∨ (4 : Int) = 0 ∨ (4 : Int) = 1) :=
  ⟨rfl, by decide⟩

/-- C7: the claim states that an extended-form literal carrying only
`size` resizes the array, growing with zero-initialised elements, also
from an empty previous array.  The code violates the empty case: the
copy-and-zero step is guarded by `last_arr_mem_size` being non-zero, so
growing from length 0 leaves the freshly malloc'd buffer uninitialised —
the result below is exactly the allocator junk (shown for two different
junk oracles), while growth from length 2 to 5 does zero the new
tail. -/
theorem extended_resize_from_empty_previous_not_zeroed :
    parse_extended_dynamic_array 90 (fun _ _ => CVal.vInt 7) demoReg
        (cs "\x7bsize: 5\x7d") (cs "int[]") (.vDynArr none 0) 0
      = ({ status := .parserOk, parse_end := 8 },
         .vDynArr (some (0, List.replicate 5 (.vInt 7))) 5, 1) ∧
    (parse_extended_dynamic_array 90 (fun _ _ => CVal.vInt 8) demoReg
        (cs "\x7bsize: 5\x7d") (cs "int[]") (.vDynArr none 0) 0).2.1
      = .vDynArr (some (0, List.replicate 5 (.vInt 8))) 5 ∧
    (parse_extended_dynamic_array 90 (fun _ _ => CVal.vInt 7) demoReg
        (cs "\x7bsize: 5\x7d") (cs "int[]") (.vDynArr (some (9, [.vInt 3, .vInt 4])) 2) 10).2.1
      = .vDynArr (some (10, [.vInt 3, .vInt 4, .vInt 0, .vInt 0, .vInt 0])) 5 :=
  ⟨rfl, rfl, rfl⟩

/-- C9: the claim states that parsing with `previous = null` zero-fills
the target, so every component the literal does not assign ends up
zeroed.  The zero-fill of `parse_composite` does happen, but the
extended-form data path of `parse_extended_dynamic_array` skips the
zeroing of a fresh buffer when the previous array was empty: parsing
`{data: [1: 1]}` against `int[]` with no previous value leaves element 0
(unassigned by the literal) equal to the allocator junk (7 or 8 below
depending on the oracle), not 0. -/
theorem parse_null_prev_extended_data_leaves_junk :
    parse_composite 90 (fun _ _ => CVal.vInt 7) demoReg
        (cs "\x7bdata: [1: 1]\x7d") (cs "int[]") none uninit 0
      = (true, some (.vDynArr (some (0, [.vInt 7, .vInt 1])) 2), 1) ∧
    parse_composite 90 (fun _ _ => CVal.vInt 8) demoReg
        (cs "\x7bdata: [1: 1]\x7d") (cs "int[]") none uninit 0
      = (true, some (.vDynArr (some (0, [.vInt 8, .vInt 1])) 2), 1) :=
  ⟨rfl, rfl⟩

/-- C10: for every input that is not a patch list (no trailing `;`),
when the inner parse fails, `parse_composite` returns false and stores
NULL into `*result`, never a partially built value. -/
theorem parse_composite_failure_stores_null
    (fuel : Nat) (junk : Junk) (reg : Registry) (value type : List Char)
    (prev_val : Option CVal) (dest0 : CVal) (ctr : Nat) (V : CVal) (C : Nat)
    (hnp : is_assignment_list value = false)
    (hdup : (match prev_val with
             | some p => struct_dup_impl fuel reg dest0 p type ctr
             | none => (zeroValueF fuel reg type, ctr)) = (V, C))
    (herr : (parse_composite_impl fuel junk reg value type V C).1.status = .parserErr) :
    parse_composite (fuel + 1) junk reg value type prev_val dest0 ctr
      = (false, none, (parse_composite_impl fuel junk reg value type V C).2.2) := by
  simp only [parse_composite, hnp, Bool.false_eq_true, if_false, hdup]
  split
  · next heq =>
    rw [heq] at herr
    simp at herr
  · rfl
  · exfalso
    rename_i hne
    exact hne herr

/-- Witness for C10 at the concrete failing literal `{g: 1}` against the
one-field record type: the unknown field name makes the inner parse
fail, and `parse_composite` hands back `false` and no value. -/
theorem parse_composite_failure_stores_null_witness :
    is_assignment_list (cs "\x7bg: 1\x7d") = false ∧
    parse_composite 91 (fun _ _ => uninit) demoReg (cs "\x7bg: 1\x7d")
        (cs "strrec") none uninit 0 = (false, none, 0) := by
  refine ⟨by decide, ?_⟩
  have h := parse_composite_failure_stores_null 90 (fun _ _ => uninit) demoReg
    (cs "\x7bg: 1\x7d") (cs "strrec") none uninit 0
    (zeroValueF 90 demoReg (cs "strrec")) 0 (by decide) rfl rfl
  exact h.trans rfl

/-- C5: for every parse call that fails with a parse-time error, the
previous value survives unchanged.  Formalised in two parts over the
functional embedding: (1) on a failing non-patch parse the caller
receives `false` and NULL — the previous value is never handed back,
partially built or otherwise; (2) the buffer the parser actually
mutates is the deep copy made by `struct_dup_impl`, and that copy shares
no owned resource (string or variable-array buffer identifier) with the
previous value, so no write through the copy can reach it.  (The
out-of-bounds element writes of claim C2 are modelled as errors; raw
heap corruption is outside the model.) -/
theorem parse_failure_previous_value_survives
    (fuel : Nat) (junk : Junk) (reg : Registry) (value type : List Char)
    (prev dest0 : CVal) (ctr : Nat) :
    (is_assignment_list value = false →
      ∀ V C, struct_dup_impl fuel reg dest0 prev type ctr = (V, C) →
      (parse_composite_impl fuel junk reg value type V C).1.status = .parserErr →
      (parse_composite (fuel + 1) junk reg value type (some prev) dest0 ctr).1 = false ∧
      (parse_composite (fuel + 1) junk reg value type (some prev) dest0 ctr).2.1 = none) ∧
    ((∀ id ∈ idsOf prev, id < ctr) → (∀ id ∈ idsOf dest0, id ∉ idsOf prev) →
      ∀ id ∈ idsOf (struct_dup_impl fuel reg dest0 prev type ctr).1, id ∉ idsOf prev) := by
  constructor
  · intro hnp V C hdup herr
    simp only [parse_composite, hnp, Bool.false_eq_true, if_false, hdup]
    split
    · next heq =>
      rw [heq] at herr
      simp at herr
    · exact ⟨rfl, rfl⟩
    · exfalso
      rename_i hne
      exact hne herr
  · intro hprev hdest id hid
    have h := ((dup_ids_bound reg fuel).1 dest0 prev type ctr).2 id hid
    rcases h with h | h
    · exact hdest id h
    · intro hmem
      exact absurd (hprev id hmem) (by omega)

/-- Witness for C5: a concrete failing patch `{g: 1}` of a one-field
record whose previous value owns string id 3; the call returns
`(false, NULL)` and the duplicate the parser mutated shares no resource
identifier with the previous value. -/
theorem parse_failure_previous_value_survives_witness :
    ((parse_composite 91 (fun _ _ => uninit) demoReg (cs "\x7bg: 1\x7d") (cs "strrec")
        (some (.vStruct [.vString (some (3, cs "x"))])) uninit 10).1 = false ∧
     (parse_composite 91 (fun _ _ => uninit) demoReg (cs "\x7bg: 1\x7d") (cs "strrec")
        (some (.vStruct [.vString (some (3, cs "x"))])) uninit 10).2.1 = none) ∧
    (∀ id ∈ idsOf (struct_dup_impl 90 demoReg uninit
        (.vStruct [.vString (some (3, cs "x"))]) (cs "strrec") 10).1,
      id ∉ idsOf (.vStruct [.vString (some (3, cs "x"))])) := by
  have h := parse_failure_previous_value_survives 90 (fun _ _ => uninit) demoReg
    (cs "\x7bg: 1\x7d") (cs "strrec") (.vStruct [.vString (some (3, cs "x"))]) uninit 10
  refine ⟨h.1 (by decide)
      (struct_dup_impl 90 demoReg uninit (.vStruct [.vString (some (3, cs "x"))])
        (cs "strrec") 10).1
      (struct_dup_impl 90 demoReg uninit (.vStruct [.vString (some (3, cs "x"))])
        (cs "strrec") 10).2 rfl rfl,
    h.2 ?_ ?_⟩
  · intro id hid
    simp only [idsOf, idsOfList] at hid
    simp at hid
    omega
  · intro id hid
    simp [uninit, idsOf, idsOfList] at hid

/-- C6: an extended-form variable-array literal giving both `size` N and
a `data` array whose maximum effective index m satisfies m ≥ N fails
with `IndexOutOfBounds` and leaves the target untouched.  Stated over
the whole extended-form parse: whenever the literal passes the shape
checks, the `size` field parses to N ≥ 0, the `data` field is present
and its array text is well-shaped with maximum index m ≥ N, the parse
returns the `IndexOutOfBounds` error and the unmodified buffer. -/
theorem extended_dynamic_array_size_conflict_errors
    (fuel : Nat) (junk : Junk) (reg : Registry) (s array_type : List Char)
    (d : Option (Nat × List CVal)) (sz : Int) (ctr : Nat)
    (basic : List Char) (pe : Nat) (r1 : parser_res)
    (dtmp : Option (Nat × List CVal)) (N : Int) (ctr2 c : Nat)
    (hbasic : get_array_basic_type array_type = some basic)
    (hmem : ¬ get_dynamic_array_mem_size_with_length reg array_type sz < 0)
    (hbr : check_braces s lbrace rbrace = some pe)
    (hne : is_empty_array s pe = false)
    (hcnt : ¬ ext_cnt_fields s > 2)
    (hs : (find_field s (cs "size")).status = .parserOk)
    (hps : parse_struct_element (fuel + 1) junk reg
        (s.drop (find_field s (cs "size")).res_pos) array_type
        (.vDynArr none (-1)) ctr = (r1, .vDynArr dtmp N, ctr2))
    (hr1 : ¬ r1.status = .parserErr)
    (hd : (find_field s (cs "data")).status = .parserOk)
    (hc : c = skip_spaces s ((find_field s (cs "data")).res_pos +
        (find_same_level_symbol (s.drop (find_field s (cs "data")).res_pos) ':').2 + 1))
    (hcs : (check_array_shape (s.drop c)).status = .parserOk)
    (hN : 0 ≤ N)
    (hconf : N ≤ (check_array_shape (s.drop c)).res_int) :
    parse_extended_dynamic_array (fuel + 2) junk reg s array_type (.vDynArr d sz) ctr
      = ({ status := .parserErr, err := .indexOutOfBounds }, .vDynArr d sz, ctr2) := by
  have hN1 : ¬ N = -1 := by omega
  simp only [parse_extended_dynamic_array, hbasic, hbr, hne, hs, hps,
    if_neg hmem, if_neg hcnt, Bool.false_eq_true, if_false]
  rw [if_neg (show ¬ (parser_status.parserOk = parser_status.parserErr) by decide)]
  rw [if_neg (show ¬ (parser_status.parserOk = parser_status.parserNotFound ∧
      ext_cnt_fields s > 1) from fun h => absurd h.1 (by decide))]
  rw [if_pos trivial, if_neg hr1]
  simp only [parse_ext_after_size, hd]
  rw [if_neg (show ¬ (parser_status.parserOk = parser_status.parserErr) by decide)]
  rw [if_neg (show ¬ (parser_status.parserOk = parser_status.parserNotFound) by decide)]
  rw [← hc]
  rw [if_neg (not_not_intro hcs)]
  rw [if_neg hN1, if_pos hconf]

/-- Witness for C6: `\x7bsize: 2, data: [0, 1, 2]\x7d` against `int[]`
— declared size 2, maximum effective index 2 — is rejected with
`IndexOutOfBounds`. -/
theorem extended_dynamic_array_size_conflict_errors_witness :
    parse_extended_dynamic_array 90 (fun _ _ => CVal.vInt 7) demoReg
        (cs "\x7bsize: 2, data: [0, 1, 2]\x7d") (cs "int[]") (.vDynArr none 0) 0
      = ({ status := .parserErr, err := .indexOutOfBounds }, .vDynArr none 0, 0) := by
  exact extended_dynamic_array_size_conflict_errors 88 (fun _ _ => CVal.vInt 7) demoReg
    (cs "\x7bsize: 2, data: [0, 1, 2]\x7d") (cs "int[]") none 0 0
    (cs "int") 25
    { status := .parserOk, parse_end := 7 } none 2 0
    (skip_spaces (cs "\x7bsize: 2, data: [0, 1, 2]\x7d")
      ((find_field (cs "\x7bsize: 2, data: [0, 1, 2]\x7d") (cs "data")).res_pos +
        (find_same_level_symbol
          ((cs "\x7bsize: 2, data: [0, 1, 2]\x7d").drop
            (find_field (cs "\x7bsize: 2, data: [0, 1, 2]\x7d") (cs "data")).res_pos)
          ':').2 + 1))
    rfl (by decide) rfl (by decide) (by decide) (by decide) rfl (by decide)
    (by decide) rfl (by decide) (by decide) (by decide)

lemma norm_in_range (r : Int) : cmpR (if r = 0 then 0 else if r > 0 then 1 else -1) := by
  split
  · exact Or.inr (Or.inl rfl)
  · split
    · exact Or.inr (Or.inr (Or.inl rfl))
    · exact Or.inl rfl

lemma norm_in_rangeQ (r : Rat) : cmpR (if r = 0 then 0 else if r > 0 then 1 else -1) := by
  split
  · exact Or.inr (Or.inl rfl)
  · split
    · exact Or.inr (Or.inr (Or.inl rfl))
    · exact Or.inl rfl

lemma dynArrFree_fields_mem (reg : Registry) :
    ∀ (c : Nat) (fs : List struct_field), dynArrFree_fields c reg fs = true →
      ∀ f ∈ fs, ∃ c2, dynArrFreeF c2 reg f.type = true := by
  intro c
  induction c with
  | zero =>
    intro fs h f hf
    cases fs with
    | nil => cases hf
    | cons g gs => simp [dynArrFree_fields] at h
  | succ c ih =>
    intro fs h f hf
    cases fs with
    | nil => cases hf
    | cons g gs =>
      simp only [dynArrFree_fields, Bool.and_eq_true] at h
      cases hf with
      | head => exact ⟨c, h.1⟩
      | tail _ hf2 => exact ih gs h.2 f hf2

lemma cmp_range_aux (reg : Registry) : ∀ n : Nat,
    (∀ t a b, (∃ cd, dynArrFreeF cd reg t = true) → cmpR (struct_cmp n reg t a b)) ∧
    (∀ t a b sz, (∀ b1, get_array_basic_type t = some b1 →
        ∃ cd, dynArrFreeF cd reg b1 = true) → cmpR (array_data_cmp n reg t a b sz)) ∧
    (∀ bt k as1 bs1, (∃ cd, dynArrFreeF cd reg bt = true) →
        cmpR (elems_cmp n reg bt k as1 bs1)) ∧
    (∀ fs as1 bs1, (∀ f ∈ fs, ∃ cd, dynArrFreeF cd reg f.type = true) →
        cmpR (fields_cmp n reg fs as1 bs1)) ∧
    (∀ t a b, (∀ d, get_type_definition reg t = some d → ¬ d.cnt_fields = 0 →
        ∀ f ∈ def_fields d, ∃ cd, dynArrFreeF cd reg f.type = true) →
        cmpR (structure_cmp n reg t a b)) := by
  intro n
  induction n with
  | zero =>
    refine ⟨?_, ?_, ?_, ?_, ?_⟩
    · intro t a b _; exact Or.inr (Or.inr (Or.inr rfl))
    · intro t a b sz _; exact Or.inr (Or.inr (Or.inr rfl))
    · intro bt k as1 bs1 _
      cases k with
      | zero => exact Or.inr (Or.inl rfl)
      | succ k => exact Or.inr (Or.inr (Or.inr rfl))
    · intro fs as1 bs1 _
      cases fs with
      | nil => exact Or.inr (Or.inl rfl)
      | cons f fs => exact Or.inr (Or.inr (Or.inr rfl))
    · intro t a b _; exact Or.inr (Or.inr (Or.inr rfl))
  | succ n ih =>
    obtain ⟨ihS, ihA, ihE, ihF, ihSt⟩ := ih
    refine ⟨?_, ?_, ?_, ?_, ?_⟩
    · intro t a b hex
      obtain ⟨cd, hfree⟩ := hex
      simp only [struct_cmp]
      by_cases hstat : is_static_array_type t = true
      · rw [if_pos hstat]
        apply ihA
        intro b1 hb1
        cases cd with
        | zero => exact absurd hfree (by simp [dynArrFreeF])
        | succ cd =>
          rw [dynArrFreeF] at hfree
          rw [if_neg (show ¬ is_dynamic_array_type t = true by
            simp [static_not_dynamic hstat])] at hfree
          rw [if_pos hstat, hb1] at hfree
          exact ⟨cd, hfree⟩
      · rw [if_neg hstat]
        by_cases hdyn : is_dynamic_array_type t = true
        · exfalso
          cases cd with
          | zero => exact absurd hfree (by simp [dynArrFreeF])
          | succ cd =>
            rw [dynArrFreeF, if_pos hdyn] at hfree
            exact Bool.false_ne_true hfree
        · rw [if_neg hdyn]
          apply ihSt
          intro d hd hcnt f hf
          cases cd with
          | zero => exact absurd hfree (by simp [dynArrFreeF])
          | succ cd =>
            rw [dynArrFreeF, if_neg hdyn, if_neg hstat, hd] at hfree
            rw [Bool.or_eq_true] at hfree
            cases hfree with
            | inl h0 => exact absurd (of_decide_eq_true h0) hcnt
            | inr h1 => exact dynArrFree_fields_mem reg cd (def_fields d) h1 f hf
    · intro t a b sz hb
      simp only [array_data_cmp]
      cases hbt : get_array_basic_type t with
      | none =>
        cases a <;> cases b <;> exact Or.inr (Or.inr (Or.inr rfl))
      | some basic =>
        split
        · rename_i basic2 es1 es2 heq
          injection heq with heq2
          subst heq2
          exact ihE basic sz.toNat es1 es2 (hb basic hbt)
        · exact Or.inr (Or.inr (Or.inr rfl))
    · intro bt k as1 bs1 hfree
      cases k with
      | zero => exact Or.inr (Or.inl rfl)
      | succ k =>
        cases as1 with
        | nil => exact Or.inr (Or.inr (Or.inr rfl))
        | cons a as2 =>
          cases bs1 with
          | nil => exact Or.inr (Or.inr (Or.inr rfl))
          | cons b bs2 =>
            simp only [elems_cmp]
            by_cases hr : struct_cmp n reg bt a b = 0
            · rw [if_pos hr]
              exact ihE bt k as2 bs2 hfree
            · rw [if_neg hr]
              exact ihS bt a b hfree
    · intro fs as1 bs1 hfree
      cases fs with
      | nil => exact Or.inr (Or.inl rfl)
      | cons f fs2 =>
        cases as1 with
        | nil => exact Or.inr (Or.inr (Or.inr rfl))
        | cons a as2 =>
          cases bs1 with
          | nil => exact Or.inr (Or.inr (Or.inr rfl))
          | cons b bs2 =>
            simp only [fields_cmp]
            by_cases hr : struct_cmp n reg f.type a b = 0
            · rw [if_pos hr]
              exact ihF fs2 as2 bs2 (fun g hg => hfree g (List.mem_cons_of_mem f hg))
            · rw [if_neg hr]
              exact ihS f.type a b (hfree f (List.mem_cons_self f fs2))
    · intro t a b hflds
      simp only [structure_cmp]
      cases hd : get_type_definition reg t with
      | none => exact Or.inr (Or.inr (Or.inr rfl))
      | some d =>
        dsimp only
        by_cases hcnt : d.cnt_fields = 0
        · rw [if_pos hcnt]
          by_cases hstr : t = cs "string"
          · rw [if_pos hstr]
            split <;>
              first
                | exact Or.inl rfl
                | exact Or.inr (Or.inl rfl)
                | exact Or.inr (Or.inr (Or.inl rfl))
                | exact Or.inr (Or.inr (Or.inr rfl))
                | exact norm_in_range _
          · rw [if_neg hstr]
            by_cases hbool : t = cs "bool"
            · rw [if_pos hbool]
              split <;>
                first
                  | exact Or.inr (Or.inr (Or.inr rfl))
                  | exact norm_in_range _
            · rw [if_neg hbool]
              by_cases hint : t = cs "int"
              · rw [if_pos hint]
                split <;>
                  first
                    | exact Or.inr (Or.inr (Or.inr rfl))
                    | exact norm_in_range _
              · rw [if_neg hint]
                by_cases hreal : t = cs "real"
                · rw [if_pos hreal]
                  split <;>
                    first
                      | exact Or.inr (Or.inr (Or.inr rfl))
                      | exact norm_in_rangeQ _
                · rw [if_neg hreal]
                  exact Or.inr (Or.inr (Or.inr rfl))
        · rw [if_neg hcnt]
          split
          · rename_i afs bfs
            exact ihF (def_fields d) afs bfs (hflds d hd hcnt)
          · exact Or.inr (Or.inr (Or.inr rfl))

/-- C4 (amended): for every registry and every pair of values of a type
from which no variable array is reachable, `compare` returns one of
-1, 0, 1, or the error code 2; and for a variable-array type, when the
two lengths differ, `compare` returns the raw length difference (the
behaviour the counterexample exhibits), which is the only escape from
the -1/0/1 contract besides the error code. -/
theorem struct_cmp_range_without_dynamic_arrays (reg : Registry) :
    (∀ n cd t a b, dynArrFreeF cd reg t = true →
      struct_cmp n reg t a b = -1 ∨ struct_cmp n reg t a b = 0 ∨
        struct_cmp n reg t a b = 1 ∨ struct_cmp n reg t a b = 2) ∧
    (∀ n t (da db : Option (Nat × List CVal)) (sa sb : Int),
      is_dynamic_array_type t = true → ¬ sa - sb = 0 →
      struct_cmp (n + 2) reg t (.vDynArr da sa) (.vDynArr db sb) = sa - sb) := by
  constructor
  · intro n cd t a b hfree
    exact (cmp_range_aux reg n).1 t a b ⟨cd, hfree⟩
  · intro n t da db sa sb hdyn hne
    have hstat : ¬ is_static_array_type t = true := by
      intro hs
      rw [static_not_dynamic hs] at hdyn
      exact Bool.false_ne_true hdyn
    simp only [struct_cmp, if_neg hstat, if_pos hdyn, dynamic_array_cmp, if_pos hne]

/-- Witness for C4 (amended): `int` is dynamic-array-free and the
comparison of 3 and 5 lands in the admitted set; `int[]` values of
lengths 3 and 1 compare to the raw difference 2. -/
theorem struct_cmp_range_without_dynamic_arrays_witness :
    (struct_cmp 5 demoReg (cs "int") (.vInt 3) (.vInt 5) = -1 ∨
     struct_cmp 5 demoReg (cs "int") (.vInt 3) (.vInt 5) = 0 ∨
     struct_cmp 5 demoReg (cs "int") (.vInt 3) (.vInt 5) = 1 ∨
     struct_cmp 5 demoReg (cs "int") (.vInt 3) (.vInt 5) = 2) ∧
    struct_cmp 7 demoReg (cs "int[]")
      (.vDynArr (some (0, [CVal.vInt 1, .vInt 1, .vInt 1])) 3)
      (.vDynArr (some (1, [CVal.vInt 1])) 1) = 3 - 1 :=
  ⟨(struct_cmp_range_without_dynamic_arrays demoReg).1 5 1 (cs "int") (.vInt 3) (.vInt 5) (by decide),
   (struct_cmp_range_without_dynamic_arrays demoReg).2 5 (cs "int[]") (some (0, [CVal.vInt 1, .vInt 1, .vInt 1]))
     (some (1, [CVal.vInt 1])) 3 1 (by decide) (by decide)⟩

lemma pad_emod (c a : Int) : (if c % a ≠ 0 then c + (a - c % a) else c) % a = 0 := by
  by_cases h : c % a = 0
  · simp [h]
  · rw [if_pos h]
    have hdm := Int.ediv_add_emod c a
    have : c + (a - c % a) = a * (c / a + 1) := by ring_nf; omega
    rw [this]
    exact Int.mul_emod_right a (c / a + 1)

lemma le_pad (c a : Int) (ha : 0 < a) :
    c ≤ (if c % a ≠ 0 then c + (a - c % a) else c) := by
  by_cases h : c % a = 0
  · simp [h]
  · rw [if_pos h]
    have := Int.emod_lt_of_pos c ha
    omega

lemma layout_offsets_length (reg : Registry) :
    ∀ (fs : List struct_field) (curr : Int),
      (layout_offsets reg fs curr).length = fs.length := by
  intro fs
  induction fs with
  | nil => intro curr; rfl
  | cons f fs ih => intro curr; simp [layout_offsets, ih]

lemma init_layout_loop_total (reg : Registry) :
    ∀ (fs : List struct_field) (curr mx : Int),
      (∀ f ∈ fs, 0 ≤ get_type_offset reg f.type ∧ 0 ≤ get_type_size reg f.type) →
      ∃ p, init_layout_loop reg fs curr mx = some p ∧ mx ≤ p.2 ∧
        ∀ f ∈ fs, get_type_offset reg f.type ≤ p.2 := by
  intro fs
  induction fs with
  | nil =>
    intro curr mx _
    exact ⟨(curr, mx), rfl, le_refl mx, fun f hf => absurd hf (List.not_mem_nil f)⟩
  | cons f fs ih =>
    intro curr mx hpos
    have hf := hpos f (List.mem_cons_self f fs)
    have hng : ¬ (get_type_offset reg f.type < 0 ∨ get_type_size reg f.type < 0) := by
      push_neg
      exact ⟨hf.1, hf.2⟩
    obtain ⟨p, heq, hle, hball⟩ := ih
      ((if curr % get_type_offset reg f.type ≠ 0 then
          curr + (get_type_offset reg f.type - curr % get_type_offset reg f.type)
        else curr) + get_type_size reg f.type)
      (if get_type_offset reg f.type > mx then get_type_offset reg f.type else mx)
      (fun g hg => hpos g (List.mem_cons_of_mem f hg))
    refine ⟨p, ?_, ?_, ?_⟩
    · simp only [init_layout_loop, if_neg hng]
      exact heq
    · refine le_trans ?_ hle
      by_cases hmx : get_type_offset reg f.type > mx
      · rw [if_pos hmx]; omega
      · rw [if_neg hmx]
    · intro g hg
      cases hg with
      | head =>
        refine le_trans ?_ hle
        by_cases hmx : get_type_offset reg f.type > mx
        · rw [if_pos hmx]
        · rw [if_neg hmx]; omega
      | tail _ hg2 => exact hball g hg2

lemma gsfo_loop_eq_offsets (reg : Registry) :
    ∀ (fs : List struct_field) (curr : Int),
      (∀ f ∈ fs, 0 ≤ get_type_offset reg f.type) →
      names_nodup (fs.map (·.name)) = true →
      ∀ i, i < fs.length →
        get_struct_field_offset_loop reg ((fs.getD i fdefault).name) fs curr
          = (layout_offsets reg fs curr).getD i 0 := by
  intro fs
  induction fs with
  | nil => intro curr _ _ i hi; cases hi
  | cons f fs ih =>
    intro curr hpos hnd i hi
    have hfo := hpos f (List.mem_cons_self f fs)
    simp only [names_nodup, Bool.and_eq_true] at hnd
    cases i with
    | zero =>
      simp only [List.getD_cons_zero, layout_offsets]
      rw [get_struct_field_offset_loop]
      rw [if_neg (by omega : ¬ get_type_offset reg f.type < 0)]
      rw [if_pos rfl]
    | succ i =>
      have hi2 : i < fs.length := by simpa using hi
      have hname : ¬ (f.name = (fs.getD i fdefault).name) := by
        intro hcontra
        have hmem : fs.getD i fdefault ∈ fs := by
          rw [List.getD_eq_getElem fs fdefault hi2]
          exact List.getElem_mem hi2
        have hcont := hnd.1
        simp at hcont
        exact hcont (fs.getD i fdefault) hmem hcontra.symm
      simp only [List.getD_cons_succ, layout_offsets]
      rw [get_struct_field_offset_loop]
      rw [if_neg (by omega : ¬ get_type_offset reg f.type < 0)]
      rw [if_neg hname]
      exact ih _ (fun g hg => hpos g (List.mem_cons_of_mem f hg)) hnd.2 i hi2

lemma layout_offsets_emod (reg : Registry) :
    ∀ (fs : List struct_field) (curr : Int) (i : Nat), i < fs.length →
      (layout_offsets reg fs curr).getD i 0 %
        get_type_offset reg ((fs.getD i fdefault).type) = 0 := by
  intro fs
  induction fs with
  | nil => intro curr i hi; cases hi
  | cons f fs ih =>
    intro curr i hi
    cases i with
    | zero =>
      simp only [List.getD_cons_zero, layout_offsets]
      exact pad_emod curr (get_type_offset reg f.type)
    | succ i =>
      simp only [List.getD_cons_succ, layout_offsets]
      exact ih _ i (by simpa using hi)

lemma layout_offsets_mono (reg : Registry) :
    ∀ (fs : List struct_field) (curr : Int) (i : Nat), i + 1 < fs.length →
      (∀ f ∈ fs, 0 < get_type_offset reg f.type) →
      (layout_offsets reg fs curr).getD i 0 +
        get_type_size reg ((fs.getD i fdefault).type) ≤
      (layout_offsets reg fs curr).getD (i + 1) 0 := by
  intro fs
  induction fs with
  | nil => intro curr i hi; cases hi
  | cons f fs ih =>
    intro curr i hi hpos
    cases i with
    | zero =>
      cases fs with
      | nil => simp at hi
      | cons g gs =>
        simp only [List.getD_cons_zero, List.getD_cons_succ, layout_offsets]
        exact le_pad _ _ (hpos g (List.mem_cons_of_mem f (List.mem_cons_self g gs)))
    | succ i =>
      simp only [List.getD_cons_succ, layout_offsets]
      exact ih _ i (by simpa using hi) (fun g hg => hpos g (List.mem_cons_of_mem f hg))

/-- C8: for every record type registered successfully (over the
registry `reg0` at registration time) and then visible as `d` in a
registry `reg` that resolves its field types to the same layouts, with
positive field alignments and non-negative field sizes and
duplicate-free field names: the total size is a multiple of the record
alignment, every field offset is a multiple of that field's alignment,
and each field starts at or after the end of the previous field. -/
theorem record_layout_law
    (reg0 reg : Registry) (tyname sig : List Char) (d : type_definition)
    (hinit : init_type_definition reg0 tyname sig = some d)
    (hreg : get_type_definition reg tyname = some d)
    (hfl : def_fields d = d.fields)
    (hsame : ∀ f ∈ d.fields, get_type_offset reg f.type = get_type_offset reg0 f.type ∧
        get_type_size reg f.type = get_type_size reg0 f.type)
    (halign : ∀ f ∈ d.fields, 0 < get_type_offset reg0 f.type)
    (hsizes : ∀ f ∈ d.fields, 0 ≤ get_type_size reg0 f.type)
    (hnodup : names_nodup (d.fields.map (·.name)) = true) :
    d.type_size % d.offset = 0 ∧
    (∀ i, i < d.fields.length →
      get_struct_field_offset reg tyname ((d.fields.getD i fdefault).name) %
        get_type_offset reg ((d.fields.getD i fdefault).type) = 0) ∧
    (∀ i, i + 1 < d.fields.length →
      get_struct_field_offset reg tyname ((d.fields.getD i fdefault).name) +
        get_type_size reg ((d.fields.getD i fdefault).type) ≤
      get_struct_field_offset reg tyname ((d.fields.getD (i + 1) fdefault).name)) := by
  unfold init_type_definition at hinit
  split at hinit
  · exact absurd hinit (by simp)
  · dsimp only at hinit
    split at hinit
    · exact absurd hinit (by simp)
    · rename_i fields hfields
      cases hloop : init_layout_loop reg0 fields 0 0 with
      | none =>
        rw [hloop] at hinit
        exact absurd hinit (by simp)
      | some pr =>
        obtain ⟨curr, mx⟩ := pr
        rw [hloop] at hinit
        dsimp only at hinit
        rw [Option.some.injEq] at hinit
        subst hinit
        dsimp only at hreg hfl hsame halign hsizes hnodup ⊢
        have hposr : ∀ f ∈ fields, 0 ≤ get_type_offset reg0 f.type ∧
            0 ≤ get_type_size reg0 f.type :=
          fun g hg => ⟨le_of_lt (halign g hg), hsizes g hg⟩
        have hposreg : ∀ f ∈ fields, 0 < get_type_offset reg f.type :=
          fun g hg => (hsame g hg).1 ▸ halign g hg
        have hposreg0 : ∀ f ∈ fields, 0 ≤ get_type_offset reg f.type :=
          fun g hg => le_of_lt (hposreg g hg)
        refine ⟨?_, ?_, ?_⟩
        · -- size % align = 0
          cases hfe : fields with
          | nil =>
            subst hfe
            have : (0 : Int) = curr ∧ (0 : Int) = mx := by
              have h0 : init_layout_loop reg0 [] 0 0 = some (0, 0) := rfl
              rw [h0, Option.some.injEq, Prod.mk.injEq] at hloop
              exact ⟨hloop.1, hloop.2⟩
            obtain ⟨hc0, hm0⟩ := this
            subst hc0
            subst hm0
            simp
          | cons f fs =>
            have hmxpos : 0 < mx := by
              obtain ⟨p, heqp, hmxle, hball⟩ :=
                init_layout_loop_total reg0 fields 0 0 hposr
              rw [hloop, Option.some.injEq] at heqp
              have hp2 : p.2 = mx := by rw [← heqp]
              have hb := hball f (by rw [hfe]; exact List.mem_cons_self f fs)
              have ha := halign f (by rw [hfe]; exact List.mem_cons_self f fs)
              omega
            have hmx : ¬ mx = 0 := by omega
            have hguard : (if mx ≠ 0 ∧ curr % mx ≠ 0 then curr + (mx - curr % mx)
                else curr) = (if curr % mx ≠ 0 then curr + (mx - curr % mx) else curr) := by
              by_cases hc : curr % mx = 0 <;> simp [hc, hmx]
            rw [hguard]
            exact pad_emod curr mx
        · intro i hi
          simp only [get_struct_field_offset, hreg]
          rw [hfl]
          rw [gsfo_loop_eq_offsets reg fields 0 hposreg0 hnodup i hi]
          exact layout_offsets_emod reg fields 0 i hi
        · intro i hi
          simp only [get_struct_field_offset, hreg]
          rw [hfl]
          rw [gsfo_loop_eq_offsets reg fields 0 hposreg0 hnodup i (by omega)]
          rw [gsfo_loop_eq_offsets reg fields 0 hposreg0 hnodup (i + 1) hi]
          exact layout_offsets_mono reg fields 0 i hi hposreg

/-- Witness for C8 at the spec's `node` registration
(`string name; string ip; int port` over the built-in registry): size
24 is a multiple of alignment 8, the `port` offset 16 is a multiple of
the `int` alignment, and `port` starts after `ip` ends. -/
theorem record_layout_law_witness :
    nodeDef.type_size % nodeDef.offset = 0 ∧
    get_struct_field_offset demoReg (cs "node")
        ((nodeDef.fields.getD 2 fdefault).name) %
      get_type_offset demoReg ((nodeDef.fields.getD 2 fdefault).type) = 0 ∧
    get_struct_field_offset demoReg (cs "node")
        ((nodeDef.fields.getD 1 fdefault).name) +
      get_type_size demoReg ((nodeDef.fields.getD 1 fdefault).type) ≤
    get_struct_field_offset demoReg (cs "node")
        ((nodeDef.fields.getD 2 fdefault).name) := by
  have h := record_layout_law baseRegistry demoReg (cs "node") (cs "string name; string ip; int port")
    nodeDef rfl rfl (by decide) (by decide) (by decide) (by decide) (by decide)
  exact ⟨h.1, h.2.1 2 (by decide), h.2.2 1 (by decide)⟩

end GucComposite
